import Mathlib

/-!
Verification development for the OPTIMA personal code optimizer.

The definitions below are a shallow embedding of the optimization
pipeline of the repository:

* `src/lib/staticAnalyzer.ts` — deterministic static analysis
  (`analyzeCode` and its helpers);
* `src/lib/promptBuilder.ts` — output validation and normalization
  (`normalizeLLMOutput`, `extractCode`, `repairTruncatedCode`,
  `calculateCodeSimilarity`, `extractCriticalElements`, `makeFallback`);
* `src/workers/optimizer.worker.ts` — the retry ladders of `runLLMCall`
  and the worker-side `chunkCode`;
* the older worker variant (`optimizer_worker.ts`) — the single-chunk
  orchestration with the no-change strengthened retry.

JavaScript strings are modelled as Lean `String` / `List Char`;
JavaScript numbers are modelled as `Nat` / `Int` where the source only
ever holds integers, and as `Rat` where the source computes fractional
values (`confidence_score`, the similarity ratio).  `Math.round` is
modelled as rounding half up on exact rationals.  Regular expressions
from the source are translated into explicit character-level matchers;
each matcher is documented with the regex literal it embeds.
-/

namespace Optima

/-- JavaScript `\s` whitespace class (the characters relevant to this
code base: space, tab, newline, carriage return, vertical tab, form
feed, no-break space, BOM, line/paragraph separator). -/
def jsWs (c : Char) : Bool :=
  c = ' ' || c = '\t' || c = '\n' || c = '\r' || c = '\x0b' || c = '\x0c' ||
  c = ' ' || c = ' ' || c = ' ' || c = '﻿'

/-- JavaScript `\w` word-character class: `[A-Za-z0-9_]`. -/
def isWordChar (c : Char) : Bool :=
  ('a' ≤ c && c ≤ 'z') || ('A' ≤ c && c ≤ 'Z') || ('0' ≤ c && c ≤ '9') || c = '_'

/-- First character of an identifier in the JS/TS regexes:
`[a-zA-Z_$]`. -/
def isIdentStart (c : Char) : Bool :=
  ('a' ≤ c && c ≤ 'z') || ('A' ≤ c && c ≤ 'Z') || c = '_' || c = '$'

/-- Subsequent identifier characters: `[a-zA-Z0-9_$]`. -/
def isIdentChar (c : Char) : Bool :=
  isIdentStart c || ('0' ≤ c && c ≤ '9')

/-- Identifier start without `$` (used by the Python/Java branches:
`[a-zA-Z_]`). -/
def isIdentStartNoDollar (c : Char) : Bool :=
  ('a' ≤ c && c ≤ 'z') || ('A' ≤ c && c ≤ 'Z') || c = '_'

/-- Identifier characters without `$`: `[a-zA-Z0-9_]`. -/
def isIdentCharNoDollar (c : Char) : Bool :=
  isIdentStartNoDollar c || ('0' ≤ c && c ≤ '9')

/-- Lowercase ASCII letter (`[a-z]`). -/
def isLowerAscii (c : Char) : Bool := 'a' ≤ c && c ≤ 'z'

/-- Uppercase ASCII letter (`[A-Z]`). -/
def isUpperAscii (c : Char) : Bool := 'A' ≤ c && c ≤ 'Z'

/-- JavaScript `String.prototype.trim` on a character list. -/
def jsTrimList (cs : List Char) : List Char :=
  ((cs.dropWhile jsWs).reverse.dropWhile jsWs).reverse

/-- JavaScript `String.prototype.trimEnd` on a character list. -/
def jsTrimEndList (cs : List Char) : List Char :=
  (cs.reverse.dropWhile jsWs).reverse

/-- JavaScript `String.prototype.trim` . -/
def jsTrim (s : String) : String := ⟨jsTrimList s.data⟩

/-- JavaScript `String.prototype.trimEnd`. -/
def jsTrimEnd (s : String) : String := ⟨jsTrimEndList s.data⟩

/-- Newline split on a character list (the last segment is the run
after the final newline, so the empty list yields one empty segment). -/
def splitLinesAux : List Char → List (List Char)
  | [] => [[]]
  | c :: rest =>
    let acc := splitLinesAux rest
    if c = '\n' then [] :: acc
    else
      match acc with
      | a :: as => (c :: a) :: as
      | [] => [[c]]

/-- JavaScript `split('\n')`. -/
def splitLines (s : String) : List String := (splitLinesAux s.data).map String.mk

/-- Does `pat` occur as a contiguous substring of `cs`?
(JavaScript `String.prototype.includes`.) -/
def containsSub (cs pat : List Char) : Bool :=
  match cs with
  | [] => pat.isEmpty
  | _ :: rest => pat.isPrefixOf cs || containsSub rest pat

/-- `String.prototype.includes` on strings. -/
def strIncludes (s pat : String) : Bool := containsSub s.data pat.data

/-- Case-insensitive substring test (for regexes with the `/i` flag the
subject is lowercased before matching). -/
def strIncludesCI (s pat : String) : Bool :=
  containsSub (s.data.map Char.toLower) pat.data

/-- JavaScript `String.prototype.startsWith`. -/
def strStartsWith (s pat : String) : Bool := pat.data.isPrefixOf s.data

/-- JavaScript `String.prototype.endsWith`. -/
def strEndsWith (s pat : String) : Bool := pat.data.reverse.isPrefixOf s.data.reverse

/-- Tokens of the character-level regex matcher.  `lit` is a literal
sequence, `cls` a single character from a class, `star`/`plus` are
`X*`/`X+` over a class, `nla` is a negative lookahead on the next
character (used for trailing `\b`), and `eos` demands the end of the
subject (used for `$`). -/
inductive RTok where
  | lit : List Char → RTok
  | cls : (Char → Bool) → RTok
  | star : (Char → Bool) → RTok
  | plus : (Char → Bool) → RTok
  | nla : (Char → Bool) → RTok
  | eos : RTok

/-- Fuelled matcher: can the token sequence `ts` match a prefix of
`cs`?  Implements the full (nondeterministic) backtracking semantics
of the embedded regexes, which is what a boolean
`RegExp.prototype.test` observes.  Every recursive call strictly
decreases `ts.length + cs.length`, so any fuel above that sum gives
the fixpoint; the recursion is on fuel to keep the definition
kernel-reducible. -/
def matchPreF : Nat → List RTok → List Char → Bool
  | 0, _, _ => false
  | _ + 1, [], _ => true
  | fuel + 1, RTok.lit l :: ts, cs => l.isPrefixOf cs && matchPreF fuel ts (cs.drop l.length)
  | fuel + 1, RTok.cls p :: ts, cs =>
    match cs with
    | [] => false
    | c :: cs' => p c && matchPreF fuel ts cs'
  | fuel + 1, RTok.star p :: ts, cs =>
    matchPreF fuel ts cs ||
      (match cs with
       | [] => false
       | c :: cs' => p c && matchPreF fuel (RTok.star p :: ts) cs')
  | fuel + 1, RTok.plus p :: ts, cs =>
    match cs with
    | [] => false
    | c :: cs' => p c && matchPreF fuel (RTok.star p :: ts) cs'
  | fuel + 1, RTok.nla p :: ts, cs =>
    (match cs with
     | [] => true
     | c :: _ => !(p c)) && matchPreF fuel ts cs
  | fuel + 1, RTok.eos :: ts, cs => cs.isEmpty && matchPreF fuel ts cs

/-- `matchPreF` with sufficient fuel. -/
def matchPre (ts : List RTok) (cs : List Char) : Bool :=
  matchPreF (ts.length + cs.length + 1) ts cs

/-- Unanchored search: does `ts` match starting at some position of
`cs`? -/
def searchMatch (ts : List RTok) : List Char → Bool
  | [] => matchPre ts []
  | c :: cs => matchPre ts (c :: cs) || searchMatch ts cs

/-- Word-boundary test between a previous character (none at the start
of the subject) and the rest of the subject (JavaScript `\b`). -/
def boundaryAt (prev : Option Char) (cs : List Char) : Bool :=
  (match prev with | none => false | some c => isWordChar c) !=
  (match cs with | [] => false | c :: _ => isWordChar c)

/-- Unanchored search for `\b` followed by the token sequence `ts`. -/
def searchWB (ts : List RTok) (prev : Option Char) : List Char → Bool
  | [] => boundaryAt prev [] && matchPre ts []
  | c :: cs =>
    (boundaryAt prev (c :: cs) && matchPre ts (c :: cs)) || searchWB ts (some c) cs

/-- Drop characters up to and including the first newline. -/
def dropToAfterNewline : List Char → Option (List Char)
  | [] => none
  | c :: rest => if c = '\n' then some rest else dropToAfterNewline rest


/-! ### Static analyzer (`src/lib/staticAnalyzer.ts`) -/

/-- One detected anti-pattern (interface `DetectedPattern`); the
`type` and `severity` fields hold the TS string-literal values. -/
structure DetectedPattern where
  type : String
  description : String
  severity : String
deriving DecidableEq, Repr

/-- One optimization suggestion (interface `OptimizationSuggestion`). -/
structure OptimizationSuggestion where
  action : String
  rationale : String
  expectedImpact : String
deriving DecidableEq, Repr

/-- The full static analysis report (interface `StaticAnalysis`). -/
structure StaticAnalysis where
  lineCount : Nat
  charCount : Nat
  functionCount : Nat
  loopCount : Nat
  nestingDepth : Int
  language : String
  detected_patterns : List DetectedPattern
  estimated_complexity : String
  detected_algorithm : String
  possible_optimizations : List OptimizationSuggestion
  confidence_score : Rat
  is_optimizable : Bool
  chunks : List String
  isTruncated : Bool
deriving DecidableEq, Repr

/-- `/\b(for|while|do)\b/.test(s)` — loop-keyword test used by
`measureStructure` and `detectNestedLoops`. -/
def testLoopKw (s : String) : Bool :=
  searchWB [RTok.lit "for".data, RTok.nla isWordChar] none s.data ||
  searchWB [RTok.lit "while".data, RTok.nla isWordChar] none s.data ||
  searchWB [RTok.lit "do".data, RTok.nla isWordChar] none s.data

/-- `/\b(function|def |fn |=>\s*\{|async\s+\w+\s*\()/.test(s)` —
function-declaration heuristic of `measureStructure`. -/
def testFnLine (s : String) : Bool :=
  searchWB [RTok.lit "function".data] none s.data ||
  searchWB [RTok.lit "def ".data] none s.data ||
  searchWB [RTok.lit "fn ".data] none s.data ||
  searchWB [RTok.lit "=>".data, RTok.star jsWs, RTok.lit ['{']] none s.data ||
  searchWB [RTok.lit "async".data, RTok.plus jsWs, RTok.plus isWordChar,
            RTok.star jsWs, RTok.lit ['(']] none s.data

/-- Number of occurrences of a character in a string
(`(line.match(/\{/g) || []).length`). -/
def countChar (c : Char) (s : String) : Nat := (s.data.filter (· = c)).length

/-- Structural metrics returned by `measureStructure`. -/
structure StructuralMetrics where
  maxDepth : Int
  loopCount : Nat
  loopNestingDepth : Nat
  fnCount : Nat
  lineCount : Nat
deriving DecidableEq, Repr

/-- Fold state of the `measureStructure` line scan: current
brace depth, running maxima/counters and the stack of depths at which
each still-open loop was entered. -/
structure MeasureState where
  depth : Int
  maxDepth : Int
  loopCount : Nat
  fnCount : Nat
  loopNestingDepth : Nat
  loopDepthStack : List Int
deriving Repr

/-- One iteration of the `measureStructure` loop body. -/
def measureLine (st : MeasureState) (line : String) : MeasureState :=
  let trimmed := jsTrim line
  let loopCount := if testLoopKw trimmed then st.loopCount + 1 else st.loopCount
  let fnCount := if testFnLine trimmed then st.fnCount + 1 else st.fnCount
  let opens : Int := countChar '{' line
  let closes : Int := countChar '}' line
  let stack0 := if testLoopKw trimmed then st.depth :: st.loopDepthStack else st.loopDepthStack
  let loopNestingDepth :=
    if testLoopKw trimmed then max st.loopNestingDepth stack0.length else st.loopNestingDepth
  let depth := st.depth + opens - closes
  let maxDepth := if depth > st.maxDepth then depth else st.maxDepth
  let stack := stack0.filter (fun d => depth > d)
  ⟨depth, maxDepth, loopCount, fnCount, loopNestingDepth, stack⟩

/-- `measureStructure(code)` — single structural pass over the lines. -/
def measureStructure (code : String) : StructuralMetrics :=
  let lines := splitLines code
  let st := lines.foldl measureLine ⟨0, 0, 0, 0, 0, []⟩
  ⟨st.maxDepth, st.loopCount, st.loopNestingDepth, st.fnCount, lines.length⟩

/-- Lowercased characters of a string (subject preparation for the
`/i` regexes). -/
def lowerData (s : String) : List Char := s.data.map Char.toLower

/-- Case-insensitive substring containment over prepared characters. -/
def icontains (cs : List Char) (pat : String) : Bool := containsSub cs pat.data

/-- `lit` then `\s*` then `(`. -/
def seqWsParen (w : String) : List RTok := [RTok.lit w.data, RTok.star jsWs, RTok.lit ['(']]

/-- `\bword\b` search over prepared characters. -/
def wordIn (cs : List Char) (w : String) : Bool :=
  searchWB [RTok.lit w.data, RTok.nla isWordChar] none cs

/-- `a.b` from the patterns — `a` then any single non-newline
character then `b`. -/
def seqAnyDot (a b : String) : List RTok :=
  [RTok.lit a.data, RTok.cls (fun c => c ≠ '\n'), RTok.lit b.data]

/-- The ordered `ALGO_PATTERNS` table: each entry is the embedded
test of its regex (over the lowercased subject), the label and the
complexity string.  First match wins in `detectAlgorithm`. -/
def ALGO_PATTERNS : List ((List Char → Bool) × String × String) :=
  [ (fun cs => icontains cs "quicksort" || icontains cs "partition" || icontains cs "pivot",
     "Quick Sort", "O(n log n) avg"),
    (fun cs => icontains cs "mergesort" || icontains cs "merge_sort" ||
               searchMatch (seqWsParen "merge") cs,
     "Merge Sort", "O(n log n)"),
    (fun cs => icontains cs "heapsort" || icontains cs "heap_sort" || icontains cs "heapify",
     "Heap Sort", "O(n log n)"),
    (fun cs => icontains cs "bubblesort" || icontains cs "bubble_sort",
     "Bubble Sort", "O(n²)"),
    (fun cs => icontains cs "insertionsort" || icontains cs "insertion_sort",
     "Insertion Sort", "O(n²)"),
    (fun cs => icontains cs "selectionsort" || icontains cs "selection_sort",
     "Selection Sort", "O(n²)"),
    (fun cs => icontains cs "binarysearch" || icontains cs "binary_search",
     "Binary Search", "O(log n)"),
    (fun cs => wordIn cs "bfs" || searchMatch (seqAnyDot "breadth" "first") cs,
     "BFS", "O(V+E)"),
    (fun cs => wordIn cs "dfs" || searchMatch (seqAnyDot "depth" "first") cs,
     "DFS", "O(V+E)"),
    (fun cs => icontains cs "dijkstra", "Dijkstra\x27s", "O((V+E) log V)"),
    (fun cs => searchMatch (seqAnyDot "dynamic" "program") cs ||
               icontains cs "dp[" || icontains cs "memo[",
     "Dynamic Programming", "O(n²) typical"),
    (fun cs => icontains cs "fibonacci" || icontains cs "fib(",
     "Fibonacci", "O(2ⁿ) naive"),
    (fun cs => icontains cs "factorial", "Factorial", "O(n)"),
    (fun cs => searchMatch [RTok.lit "hash".data, RTok.star (fun c => c ≠ '\n'),
                            RTok.lit "map".data] cs ||
               icontains cs "hashmap" || icontains cs "new map(",
     "Hash Map Lookup", "O(1) avg"),
    (fun cs => searchMatch (seqWsParen ".sort") cs, "Array Sort", "O(n log n)"),
    (fun cs => searchMatch (seqWsParen ".filter") cs || searchMatch (seqWsParen ".map") cs ||
               icontains cs ".reduce",
     "Functional Pipeline", "O(n)"),
    (fun cs => searchMatch (seqWsParen "fetch") cs || icontains cs "axios." ||
               icontains cs "http.",
     "HTTP/API Call", "O(1) network"),
    (fun cs => icontains cs "regex" || icontains cs ".match(",
     "Regex Processing", "O(n·m) worst"),
    (fun cs => searchMatch [RTok.lit "class".data, RTok.plus jsWs, RTok.cls isWordChar] cs ||
               searchMatch [RTok.lit "interface".data, RTok.plus jsWs, RTok.cls isWordChar] cs,
     "OOP / Class Design", "N/A") ]

/-- `detectAlgorithm(code)` — first matching entry of `ALGO_PATTERNS`
wins, else `Custom Logic` / `Unknown`. -/
def detectAlgorithm (code : String) : String × String :=
  let cs := lowerData code
  (ALGO_PATTERNS.find? (fun e => e.1 cs)).elim ("Custom Logic", "Unknown") (fun e => e.2)

/-- Try `KW\s+([A-Za-z_][A-Za-z0-9_]*)\s*\(` at the current position
(the `\b` before `KW` is checked by the caller); returns the captured
name and the characters after the match. -/
def tryKwName (kw : List Char) (cs : List Char) : Option (String × List Char) :=
  if kw.isPrefixOf cs then
    let r1 := cs.drop kw.length
    let ws := r1.takeWhile jsWs
    if ws.isEmpty then none else
    match r1.drop ws.length with
    | c :: rest =>
      if isIdentStartNoDollar c then
        let idRest := rest.takeWhile isIdentCharNoDollar
        let r3 := (rest.drop idRest.length).dropWhile jsWs
        match r3 with
        | '(' :: r4 => some (String.mk (c :: idRest), r4)
        | _ => none
      else none
    | [] => none
  else none

/-- `code.matchAll(/\bKW\s+([name])\s*\(/g)` — collect all captured
names, scanning left to right and resuming after each match. -/
def scanKwNames (kw : List Char) : Nat → Option Char → List Char → List String
  | 0, _, _ => []
  | _, _, [] => []
  | fuel + 1, prev, c :: cs =>
    if boundaryAt prev (c :: cs) then
      match tryKwName kw (c :: cs) with
      | some (name, rest) => name :: scanKwNames kw fuel (some '(') rest
      | none => scanKwNames kw fuel (some c) cs
    else scanKwNames kw fuel (some c) cs

/-- Try `^\s*([A-Za-z_][A-Za-z0-9_]*)\s*\([^)]*\)\s*\{` at a line
start. -/
def tryMethodDecl (cs : List Char) : Option (String × List Char) :=
  match cs.dropWhile jsWs with
  | c :: rest =>
    if isIdentStartNoDollar c then
      let idRest := rest.takeWhile isIdentCharNoDollar
      match (rest.drop idRest.length).dropWhile jsWs with
      | '(' :: r3 =>
        let inner := r3.takeWhile (· ≠ ')')
        match r3.drop inner.length with
        | ')' :: r5 =>
          match r5.dropWhile jsWs with
          | '{' :: r7 => some (String.mk (c :: idRest), r7)
          | _ => none
        | _ => none
      | _ => none
    else none
  | [] => none

/-- `code.matchAll(/^\s*([name])\s*\([^)]*\)\s*\{/gm)` — try the
method-style declaration at position 0 and after every newline,
resuming after each match. -/
def scanMethodNames : Nat → List Char → List String
  | 0, _ => []
  | fuel + 1, cs =>
    match tryMethodDecl cs with
    | some (name, rest) =>
      name ::
        (match dropToAfterNewline rest with
         | none => []
         | some r => scanMethodNames fuel r)
    | none =>
      match dropToAfterNewline cs with
      | none => []
      | some r => scanMethodNames fuel r

/-- `(code.match(new RegExp('\\b' + name + '\\s*\\(', 'g')) || []).length`
— number of call-looking occurrences of `name`. -/
def countCalls (name : List Char) : Nat → Option Char → List Char → Nat
  | 0, _, _ => 0
  | _, _, [] => 0
  | fuel + 1, prev, c :: cs =>
    if boundaryAt prev (c :: cs) && name.isPrefixOf (c :: cs) then
      match ((c :: cs).drop name.length).dropWhile jsWs with
      | '(' :: r3 => 1 + countCalls name fuel (some '(') r3
      | _ => countCalls name fuel (some c) cs
    else countCalls name fuel (some c) cs

/-- Insertion preserving the first occurrence (JS `Set` insertion). -/
def insertUnique (l : List String) (s : String) : List String :=
  if l.contains s then l else l ++ [s]

/-- Iteration order of a JS `Set` built by repeated `add`. -/
def dedupKeepFirst (l : List String) : List String := l.foldl insertUnique []

/-- The `for (const name of fnNames)` loop of `detectRecursion`: the
first name with two or more call-looking occurrences decides, then the
loop breaks. -/
def findRecNames (cs : List Char) (fuel : Nat) (midLike : Bool) :
    List String → Bool × Bool
  | [] => (false, false)
  | n :: rest =>
    let c := countCalls n.data fuel none cs
    if c ≥ 2 then (true, c ≥ 3 && midLike) else findRecNames cs fuel midLike rest

/-- `detectRecursion(code)` — `(isRecursive, isDivideAndConquer)`. -/
def detectRecursion (code : String) : Bool × Bool :=
  let cs := code.data
  let fuel := cs.length + 1
  let jsNames := scanKwNames "function".data fuel none cs
  let pyNames := scanKwNames "def".data fuel none cs
  let methodNames := scanMethodNames fuel cs
  let fnNames := dedupKeepFirst (jsNames ++ pyNames ++ methodNames)
  let midLike :=
    ["mid", "middle", "pivot", "left", "right", "lo", "hi"].any (wordIn (lowerData code))
  findRecNames cs fuel midLike fnNames

/-- `estimateComplexityFromMetrics` — named algorithm beats recursion
heuristics beats loop-nesting depth. -/
def estimateComplexityFromMetrics (loopCount loopNestingDepth : Nat)
    (algoComplexity : String) (recursion : Bool × Bool) : String :=
  if algoComplexity ≠ "Unknown" then algoComplexity
  else if recursion.2 then "O(n log n) typical"
  else if recursion.1 then "O(n) to O(2ⁿ) (recursive)"
  else if loopNestingDepth ≥ 3 then "O(n³) or worse"
  else if loopNestingDepth = 2 then "O(n²)"
  else if loopCount ≥ 1 then "O(n)"
  else "O(1)"

/-- Fold state of the `detectNestedLoops` line scan. -/
structure NestedLoopState where
  depth : Int
  stack : List Int
  maxLoopDepth : Nat
deriving Repr

/-- One iteration of the `detectNestedLoops` loop body (the loop
keyword is tested on the raw line here, not the trimmed line). -/
def nestedLoopLine (st : NestedLoopState) (line : String) : NestedLoopState :=
  let opens : Int := countChar '{' line
  let closes : Int := countChar '}' line
  let stack0 := if testLoopKw line then st.depth :: st.stack else st.stack
  let maxLoopDepth :=
    if testLoopKw line then max st.maxLoopDepth stack0.length else st.maxLoopDepth
  let depth := st.depth + opens - closes
  ⟨depth, stack0.filter (fun d => depth > d), maxLoopDepth⟩

/-- `detectNestedLoops(code)`. -/
def detectNestedLoops (code : String) : Option DetectedPattern :=
  let st := (splitLines code).foldl nestedLoopLine ⟨0, [], 0⟩
  if st.maxLoopDepth ≥ 2 then
    some ⟨"nested_loops",
      "Nested loops detected (depth " ++ toString st.maxLoopDepth ++ ") — likely O(n" ++
        (if st.maxLoopDepth > 2 then "³" else "²") ++ ") behaviour",
      if st.maxLoopDepth ≥ 3 then "high" else "medium"⟩
  else none

/-- `/\b(for|while)\b[^{]*\{[^}]*(\.length|\.size\(\)|\.count\(\))[^}]*}/s`
— `.length` / `.size()` / `.count()` inside a loop body. -/
def insideLoopLengthTest (cs : List Char) : Bool :=
  ["for", "while"].any (fun w =>
    [".length", ".size()", ".count()"].any (fun x =>
      searchWB [RTok.lit w.data, RTok.nla isWordChar, RTok.star (· ≠ '{'), RTok.lit ['{'],
                RTok.star (· ≠ '}'), RTok.lit x.data, RTok.star (· ≠ '}'), RTok.lit ['}']]
        none cs))

/-- Try `\w+\.\w+\([^)]*\)` at the current position (the `\b` is
checked by the caller); returns the whole match text and the rest. -/
def tryDotCall (cs : List Char) : Option (String × List Char) :=
  match cs with
  | c :: rest =>
    if isWordChar c then
      let w1r := rest.takeWhile isWordChar
      match rest.drop w1r.length with
      | '.' :: d :: r3 =>
        if isWordChar d then
          let w2r := r3.takeWhile isWordChar
          match r3.drop w2r.length with
          | '(' :: r5 =>
            let inner := r5.takeWhile (· ≠ ')')
            match r5.drop inner.length with
            | ')' :: r7 =>
              some (String.mk ((c :: w1r) ++ '.' :: (d :: w2r) ++ '(' :: inner ++ [')']), r7)
            | _ => none
          | _ => none
        else none
      | _ => none
    else none
  | [] => none

/-- `code.match(/\b\w+\.\w+\([^)]*\)/g) || []` — the list of
method-call-shaped substrings. -/
def scanDotCalls : Nat → Option Char → List Char → List String
  | 0, _, _ => []
  | _, _, [] => []
  | fuel + 1, prev, c :: cs =>
    if boundaryAt prev (c :: cs) then
      match tryDotCall (c :: cs) with
      | some (s, rest) => s :: scanDotCalls fuel (some ')') rest
      | none => scanDotCalls fuel (some c) cs
    else scanDotCalls fuel (some c) cs

/-- `detectRepeatedComputation(code)`. -/
def detectRepeatedComputation (code : String) : Option DetectedPattern :=
  let cs := code.data
  let insideLoopLength := insideLoopLengthTest cs
  let calls := scanDotCalls (cs.length + 1) none cs
  let repeatedCall := calls.any (fun s => (calls.filter (· = s)).length ≥ 3)
  if insideLoopLength || repeatedCall then
    some ⟨"repeated_computation",
      if insideLoopLength then
        "Array .length / .size() called inside loop body — cache before loop"
      else "Same expression computed 3+ times — consider caching result",
      "medium"⟩
  else none

/-- `detectInefficientDataStructure(code)`. -/
def detectInefficientDataStructure (code : String) : Option DetectedPattern :=
  let cs := code.data
  let arrayIncludes :=
    searchMatch (seqWsParen ".includes") cs || searchMatch (seqWsParen ".indexOf") cs
  let base : List RTok :=
    [RTok.lit "for".data, RTok.star jsWs, RTok.lit ['('], RTok.plus (· ≠ ')'),
     RTok.lit [')'], RTok.star jsWs, RTok.lit ['{'], RTok.star (· ≠ '}'), RTok.lit "==".data]
  let linearSearch :=
    searchMatch (base ++ [RTok.lit "=".data, RTok.star jsWs, RTok.cls isWordChar]) cs ||
    searchMatch (base ++ [RTok.star jsWs, RTok.cls isWordChar]) cs
  if arrayIncludes && linearSearch then
    some ⟨"inefficient_data_structure",
      "Array.includes/indexOf used for membership test — a Set would give O(1) lookup",
      "high"⟩
  else if arrayIncludes then
    some ⟨"inefficient_data_structure",
      "Array.includes() for lookup — consider Set for O(1) membership checks",
      "medium"⟩
  else none

/-- `detectRedundantConditions(code)`. -/
def detectRedundantConditions (code : String) : Option DetectedPattern :=
  let cs := code.data
  let doubleNegation :=
    searchMatch [RTok.lit ['!'], RTok.star jsWs, RTok.lit ['!'], RTok.star jsWs,
                 RTok.cls isWordChar] cs
  let trivialTrueFalse :=
    ["true", "false"].any (fun w =>
      searchMatch [RTok.lit "if".data, RTok.star jsWs, RTok.lit ['('], RTok.star jsWs,
                   RTok.lit w.data, RTok.star jsWs, RTok.lit [')']] cs)
  let redundantElse :=
    searchMatch [RTok.lit "return".data, RTok.plus jsWs, RTok.plus (· ≠ ';'), RTok.lit [';'],
                 RTok.star jsWs, RTok.lit ['}'], RTok.star jsWs, RTok.lit "else".data,
                 RTok.star jsWs, RTok.lit ['{']] cs
  if doubleNegation || trivialTrueFalse || redundantElse then
    some ⟨"redundant_condition",
      if doubleNegation then "Double negation (!!) detected — simplify condition"
      else if trivialTrueFalse then "Trivial always-true/false condition found"
      else "Redundant else after return — early exit already handled",
      "low"⟩
  else none

/-- `detectStringConcatInLoop(code)` — a `+=` of a quote-opened string
literal inside a loop body (the quote class covers double quote, single
quote and backtick). -/
def detectStringConcatInLoop (code : String) : Option DetectedPattern :=
  let cs := code.data
  let backtick : Char := Char.ofNat 96
  let concat :=
    ["for", "while"].any (fun w =>
      searchWB [RTok.lit w.data, RTok.nla isWordChar, RTok.star (· ≠ '{'), RTok.lit ['{'],
                RTok.star (· ≠ '}'), RTok.lit "+=".data, RTok.star jsWs,
                RTok.cls (fun c => c = '"' || c = '\'' || c = backtick)] none cs)
  if concat then
    some ⟨"string_concat_in_loop",
      "String concatenation inside loop — use array.join() or StringBuilder equivalent",
      "high"⟩
  else none

/-- `detectExcessiveNesting(code, maxDepth)`. -/
def detectExcessiveNesting (maxDepth : Int) : Option DetectedPattern :=
  if maxDepth ≥ 5 then
    some ⟨"excessive_nesting",
      "Nesting depth of " ++ toString maxDepth ++
        " detected — extract helpers or use early returns",
      if maxDepth ≥ 7 then "high" else "medium"⟩
  else none

/-- Try `function\s+\w+[^{]*\{([\s\S]*?)\}` at the current position
(`\b` checked by the caller); returns the line count of the lazily
captured body. -/
def tryLargeFnAt (cs : List Char) : Option Nat :=
  if "function".data.isPrefixOf cs then
    let r1 := cs.drop 8
    let ws := r1.takeWhile jsWs
    if ws.isEmpty then none else
    match r1.drop ws.length with
    | c :: r3 =>
      if isWordChar c then
        match (r3.dropWhile isWordChar).dropWhile (· ≠ '{') with
        | '{' :: r5 =>
          let body := r5.takeWhile (· ≠ '}')
          match r5.drop body.length with
          | '}' :: _ => some ((body.filter (· = '\n')).length + 1)
          | _ => none
        | _ => none
      else none
    | [] => none
  else none

/-- Leftmost match of `code.match(/\bfunction\s+\w+[^{]*\{([\s\S]*?)\}/)`
— returns the body line count of the first function found. -/
def scanLargeFn : Nat → Option Char → List Char → Option Nat
  | 0, _, _ => none
  | _, _, [] => none
  | fuel + 1, prev, c :: cs =>
    if boundaryAt prev (c :: cs) then
      match tryLargeFnAt (c :: cs) with
      | some n => some n
      | none => scanLargeFn fuel (some c) cs
    else scanLargeFn fuel (some c) cs

/-- `detectLargeFunction(code, lineCount)`. -/
def detectLargeFunction (code : String) (lineCount : Nat) : Option DetectedPattern :=
  let fromSize :=
    if lineCount > 200 then
      some (DetectedPattern.mk "large_function"
        ("Large code block (" ++ toString lineCount ++
          " lines) — modularization may improve maintainability")
        "low")
    else none
  match scanLargeFn (code.data.length + 1) none code.data with
  | some bodyLines =>
    if bodyLines > 80 then
      some ⟨"large_function",
        "Function body of ~" ++ toString bodyLines ++
          " lines — consider splitting into smaller, focused functions",
        "medium"⟩
    else fromSize
  | none => fromSize

/-- The `switch (p.type)` table of `buildSuggestions`. -/
def suggestionFor (t : String) : Option OptimizationSuggestion :=
  if t = "nested_loops" then
    some ⟨"Flatten or eliminate inner loop using a hash map / precomputed lookup",
          "Replaces O(n²) nested iteration with O(n) traversal", "high"⟩
  else if t = "repeated_computation" then
    some ⟨"Cache repeated computation in a local variable before the loop",
          "Avoids redundant evaluation of the same expression on each iteration", "medium"⟩
  else if t = "inefficient_data_structure" then
    some ⟨"Replace Array.includes/indexOf membership test with a Set",
          "Set.has() is O(1) vs Array.includes() which is O(n)", "high"⟩
  else if t = "redundant_condition" then
    some ⟨"Simplify redundant conditional logic or use early return pattern",
          "Reduces cognitive load and may eliminate dead branches", "low"⟩
  else if t = "string_concat_in_loop" then
    some ⟨"Collect into an array and join once after the loop",
          "Avoids O(n²) string copying from repeated concatenation", "high"⟩
  else if t = "excessive_nesting" then
    some ⟨"Extract inner blocks into named helper functions, use guard clauses",
          "Reduces cognitive overhead and makes control flow testable in isolation", "medium"⟩
  else if t = "large_function" then
    some ⟨"Decompose into smaller functions with single responsibilities",
          "Improves readability, testability, and reusability", "low"⟩
  else none

/-- `/O\(n[²³2³]\)|O\(n\^[23]\)|worse/.test(complexity)` — the
complexity-driven suggestion trigger of `buildSuggestions`. -/
def complexitySuggTest (complexity : String) : Bool :=
  strIncludes complexity "O(n²)" || strIncludes complexity "O(n³)" ||
  strIncludes complexity "O(n2)" || strIncludes complexity "O(n^2)" ||
  strIncludes complexity "O(n^3)" || strIncludes complexity "worse"

/-- `buildSuggestions(patterns, complexity)`. -/
def buildSuggestions (patterns : List DetectedPattern) (complexity : String) :
    List OptimizationSuggestion :=
  let base := patterns.filterMap (fun p => suggestionFor p.type)
  if complexitySuggTest complexity && !(base.any (fun s => strIncludes s.action "hash")) then
    base ++ [⟨"Look for opportunities to use hash-based lookups (Map/Set) to reduce complexity",
             "Current complexity is " ++ complexity ++ " — hash structures may bring it to O(n)",
             "high"⟩]
  else base

/-- `x.toFixed(2)` followed by `parseFloat`, modelled as exact
rounding to two decimals (half up on the nonnegative scores that
occur here). -/
def jsToFixed2 (q : Rat) : Rat := mkRat (Int.floor (q * 100 + mkRat 1 2)) 100

/-- `/O\(n[²³]|worse|O\(2/.test(complexity)` — the strong complexity
bonus of `computeConfidence`. -/
def complexityBonusStrong (complexity : String) : Bool :=
  strIncludes complexity "O(n²" || strIncludes complexity "O(n³" ||
  strIncludes complexity "worse" || strIncludes complexity "O(2"

/-- `computeConfidence(patterns, suggestions, complexity, lineCount)`.
The JavaScript floating-point arithmetic on the fixed weight table is
modelled as exact rational arithmetic. -/
def computeConfidence (patterns : List DetectedPattern)
    (suggestions : List OptimizationSuggestion) (complexity : String)
    (lineCount : Nat) : Rat :=
  let score : Rat := patterns.foldl
    (fun s p =>
      if p.severity = "high" then s + mkRat 1 4
      else if p.severity = "medium" then s + mkRat 3 20
      else s + mkRat 1 20) 0
  let score :=
    if complexityBonusStrong complexity then score + mkRat 1 4
    else if strIncludes complexity "O(n2)" || strIncludes complexity "O(n^2)" then
      score + mkRat 1 5
    else if strIncludes complexity "O(n)" then score + mkRat 1 20
    else score
  let score := score +
    min (((suggestions.filter (fun s => s.expectedImpact = "high")).length : Rat) *
        mkRat 3 20)
      (mkRat 3 10)
  let score :=
    if lineCount < 5 then score * mkRat 3 10
    else if lineCount < 10 then score * mkRat 3 5
    else score
  min (jsToFixed2 score) 1

/-- `detectLanguage(code)` — the ordered language-detection regex
chain (each regex translated clause by clause; `$` without the `m`
flag together with a preceding `\s*` reduces to
"all remaining characters are whitespace"). -/
def detectLanguage (code : String) : String :=
  let cs := code.data
  if searchMatch [RTok.lit "def".data, RTok.plus jsWs, RTok.plus isWordChar,
                  RTok.star jsWs, RTok.lit ['(']] cs ||
     searchMatch [RTok.lit "import".data, RTok.plus jsWs, RTok.plus isWordChar,
                  RTok.star jsWs, RTok.eos] cs ||
     searchMatch [RTok.lit [':'], RTok.star jsWs, RTok.eos] cs then "Python"
  else if searchMatch [RTok.lit "fn".data, RTok.plus jsWs, RTok.plus isWordChar,
                       RTok.star jsWs, RTok.lit ['(']] cs ||
          searchMatch [RTok.lit "let".data, RTok.plus jsWs, RTok.lit "mut".data,
                       RTok.plus jsWs] cs ||
          strIncludes code "println!" then "Rust"
  else if searchMatch [RTok.lit "package".data, RTok.plus jsWs, RTok.lit "main".data] cs ||
          searchMatch [RTok.lit "func".data, RTok.plus jsWs, RTok.plus isWordChar,
                       RTok.star jsWs, RTok.lit ['(']] cs ||
          strIncludes code "fmt." then "Go"
  else if searchMatch [RTok.lit "::".data, RTok.cls isWordChar] cs ||
          strIncludes code "std::" || strIncludes code "->" then "C++"
  else if searchMatch [RTok.lit "#include".data, RTok.star jsWs, RTok.lit ['<']] cs then "C"
  else if searchMatch [RTok.lit "public".data, RTok.plus jsWs, RTok.lit "class".data] cs ||
          strIncludes code "System.out.println" then "Java"
  else if ["string", "number", "boolean", "any", "void"].any (fun w =>
            searchMatch [RTok.lit [':'], RTok.star jsWs, RTok.lit w.data,
                         RTok.nla isWordChar] cs) then "TypeScript"
  else "JavaScript"

/-- `CHUNK_SIZE` of the static analyzer (characters per LLM chunk). -/
def CHUNK_SIZE : Nat := 3200

/-- The boundary keywords of the analyzer chunker
(`/^(function |class |def |fn |public |private |protected |export |async function )/`). -/
def chunkBoundaryKws : List String :=
  ["function ", "class ", "def ", "fn ", "public ", "private ", "protected ", "export ",
   "async function "]

/-- Fold state of the analyzer `chunkCode` loop. -/
structure ChunkState where
  chunks : List String
  current : String
  inChunk : Bool
deriving Repr

/-- One iteration of the analyzer `chunkCode` loop body. -/
def chunkLine (st : ChunkState) (line : String) : ChunkState :=
  let isBoundary := chunkBoundaryKws.any (fun k => strStartsWith (jsTrim line) k)
  if isBoundary && st.inChunk && st.current.length > CHUNK_SIZE / 2 then
    ⟨st.chunks ++ [jsTrim st.current], line ++ "\n", true⟩
  else
    let current := st.current ++ line ++ "\n"
    if current.length ≥ CHUNK_SIZE then ⟨st.chunks ++ [jsTrim current], "", true⟩
    else ⟨st.chunks, current, true⟩

/-- `chunkCode(code)` of the static analyzer — split at natural
function/class boundaries once past half the chunk size. -/
def chunkCodeAnalyzer (code : String) : List String :=
  if code.length ≤ CHUNK_SIZE then [code]
  else
    let st := (splitLines code).foldl chunkLine ⟨[], "", false⟩
    let chunks :=
      if jsTrim st.current ≠ "" then st.chunks ++ [jsTrim st.current] else st.chunks
    if chunks.length > 0 then chunks else [⟨code.data.take CHUNK_SIZE⟩]

/-- `/O\(n[²³]|O\(2/.test(estimated_complexity)` — the complexity arm
of the `is_optimizable` gate. -/
def isQuadTest (complexity : String) : Bool :=
  strIncludes complexity "O(n²" || strIncludes complexity "O(n³" ||
  strIncludes complexity "O(2"

/-- `analyzeCode(code, selectedLanguage)` — the static analyzer main
entry point. -/
def analyzeCode (code selectedLanguage : String) : StaticAnalysis :=
  let m := measureStructure code
  let algo := detectAlgorithm code
  let recursion := detectRecursion code
  let estimated_complexity :=
    estimateComplexityFromMetrics m.loopCount m.loopNestingDepth algo.2 recursion
  let language :=
    if selectedLanguage ≠ "TypeScript" then selectedLanguage
    else
      let d := detectLanguage code
      if d ≠ "" then d else selectedLanguage
  let rawPatterns :=
    [detectNestedLoops code, detectRepeatedComputation code,
     detectInefficientDataStructure code, detectRedundantConditions code,
     detectStringConcatInLoop code, detectExcessiveNesting m.maxDepth,
     detectLargeFunction code m.lineCount].reduceOption
  let possible_optimizations := buildSuggestions rawPatterns estimated_complexity
  let confidence_score :=
    computeConfidence rawPatterns possible_optimizations estimated_complexity m.lineCount
  let is_optimizable :=
    decide (confidence_score ≥ mkRat 1 2) &&
      (rawPatterns.length > 0 || isQuadTest estimated_complexity)
  let chunks := chunkCodeAnalyzer code
  { lineCount := m.lineCount
    charCount := code.length
    functionCount := m.fnCount
    loopCount := m.loopCount
    nestingDepth := m.maxDepth
    language := language
    detected_patterns := rawPatterns
    estimated_complexity := estimated_complexity
    detected_algorithm := algo.1
    possible_optimizations := possible_optimizations
    confidence_score := confidence_score
    is_optimizable := is_optimizable
    chunks := chunks
    isTruncated := chunks.length > 1 }

/-! ### Output validator (`src/lib/promptBuilder.ts`) -/

/-- `normalizeCode(code)` — per-line `trimEnd`, joined, then trimmed. -/
def normalizeCode (code : String) : String :=
  jsTrim (String.intercalate "\n" ((splitLines code).map jsTrimEnd))

/-- Parse one identifier at the current position given its start and
continuation classes; returns the identifier and the rest. -/
def tryIdentAt (startP contP : Char → Bool) (cs : List Char) :
    Option (String × List Char) :=
  match cs with
  | c :: rest =>
    if startP c then
      let r := rest.takeWhile contP
      some (String.mk (c :: r), rest.drop r.length)
    else none
  | [] => none

/-- `(?:const|let|var)\s+([a-zA-Z_$][a-zA-Z0-9_$]*)` at the current
position. -/
def tryVarDecl (cs : List Char) : Option String :=
  let kwLen : Option Nat :=
    if "const".data.isPrefixOf cs then some 5
    else if "let".data.isPrefixOf cs then some 3
    else if "var".data.isPrefixOf cs then some 3
    else none
  match kwLen with
  | some n =>
    let r1 := cs.drop n
    let ws := r1.takeWhile jsWs
    if ws.isEmpty then none
    else (tryIdentAt isIdentStart isIdentChar (r1.drop ws.length)).map (·.1)
  | none => none

/-- Group 1 of the function regex: `function\s+([a-zA-Z_$][a-zA-Z0-9_$]*)`. -/
def tryFnAlt1 (cs : List Char) : Option String :=
  if "function".data.isPrefixOf cs then
    let r1 := cs.drop 8
    let ws := r1.takeWhile jsWs
    if ws.isEmpty then none
    else (tryIdentAt isIdentStart isIdentChar (r1.drop ws.length)).map (·.1)
  else none

/-- Group 2: `def\s+([a-zA-Z_][a-zA-Z0-9_]*)\s*\(`. -/
def tryFnAlt2 (cs : List Char) : Option String :=
  if "def".data.isPrefixOf cs then
    let r1 := cs.drop 3
    let ws := r1.takeWhile jsWs
    if ws.isEmpty then none
    else
      match tryIdentAt isIdentStartNoDollar isIdentCharNoDollar (r1.drop ws.length) with
      | some (name, rest) =>
        match rest.dropWhile jsWs with
        | '(' :: _ => some name
        | _ => none
      | none => none
  else none

/-- Group 3: `([a-zA-Z_$][a-zA-Z0-9_$]*)\s*=\s*(?:function|\([^)]*\)\s*=>)`. -/
def tryFnAlt3 (cs : List Char) : Option String :=
  match tryIdentAt isIdentStart isIdentChar cs with
  | some (name, rest) =>
    match rest.dropWhile jsWs with
    | '=' :: r2 =>
      let r3 := r2.dropWhile jsWs
      if "function".data.isPrefixOf r3 then some name
      else
        match r3 with
        | '(' :: r4 =>
          let inner := r4.takeWhile (· ≠ ')')
          match r4.drop inner.length with
          | ')' :: r5 =>
            if "=>".data.isPrefixOf (r5.dropWhile jsWs) then some name else none
          | _ => none
        | _ => none
    | _ => none
  | none => none

/-- The modifier keywords of group 4 of the function regex. -/
def modifierKws : List String :=
  ["public", "private", "protected", "static", "final", "synchronized", "override",
   "inline", "virtual", "explicit"]

/-- Characters of the return-type class `[\w<>\[\]*&:]`. -/
def isTypeChar (c : Char) : Bool :=
  isWordChar c || c = '<' || c = '>' || c = '[' || c = ']' || c = '*' || c = '&' || c = ':'

/-- One `(?:public|private|...)\s+` repetition of group 4. -/
def tryKwRep (cs : List Char) : Option (List Char) :=
  match modifierKws.find? (fun k => k.data.isPrefixOf cs) with
  | some k =>
    let r := cs.drop k.length
    let ws := r.takeWhile jsWs
    if ws.isEmpty then none else some (r.drop ws.length)
  | none => none

/-- Tail of group 4 after the modifiers:
`[\w<>\[\]*&:]+\s+([a-zA-Z_][a-zA-Z0-9_]*)\s*\(`. -/
def tryFnAlt4Finish (cs : List Char) : Option String :=
  let ty := cs.takeWhile isTypeChar
  if ty.isEmpty then none
  else
    let r1 := cs.drop ty.length
    let ws := r1.takeWhile jsWs
    if ws.isEmpty then none
    else
      match tryIdentAt isIdentStartNoDollar isIdentCharNoDollar (r1.drop ws.length) with
      | some (name, rest) =>
        match rest.dropWhile jsWs with
        | '(' :: _ => some name
        | _ => none
      | none => none

/-- Greedy backtracking over the `(...\s+)+` repetitions of group 4:
prefer consuming one more modifier, fall back to finishing here. -/
def tryFnAlt4From : Nat → List Char → Option String
  | 0, cs => tryFnAlt4Finish cs
  | fuel + 1, cs =>
    (match tryKwRep cs with
     | some r2 => tryFnAlt4From fuel r2
     | none => none) <|> tryFnAlt4Finish cs

/-- Group 4:
`(?:(?:public|...|explicit)\s+)+[\w<>\[\]*&:]+\s+([a-zA-Z_][a-zA-Z0-9_]*)\s*\(`. -/
def tryFnAlt4 (cs : List Char) : Option String :=
  match tryKwRep cs with
  | some rest => tryFnAlt4From (rest.length + 1) rest
  | none => none

/-- The whole multi-language function regex (Fix 6) at the current
position, alternatives in source order. -/
def tryFuncDecl (cs : List Char) : Option String :=
  tryFnAlt1 cs <|> tryFnAlt2 cs <|> tryFnAlt3 cs <|> tryFnAlt4 cs

/-- `class\s+([a-zA-Z_$][a-zA-Z0-9_$]*)` at the current position. -/
def tryClassDecl (cs : List Char) : Option String :=
  if "class".data.isPrefixOf cs then
    let r1 := cs.drop 5
    let ws := r1.takeWhile jsWs
    if ws.isEmpty then none
    else (tryIdentAt isIdentStart isIdentChar (r1.drop ws.length)).map (·.1)
  else none

/-- Is the character a quote of the import-source class? -/
def isQuoteChar (c : Char) : Bool := c = '\'' || c = '"'

/-- Lazy `.*?from\s+['"]([^'"]+)['"]` scan (advances one non-newline
character at a time, shortest match first). -/
def lazyFrom : Nat → List Char → Option String
  | 0, _ => none
  | fuel + 1, cs =>
    (if "from".data.isPrefixOf cs then
      let r := cs.drop 4
      let ws := r.takeWhile jsWs
      if ws.isEmpty then none
      else
        match r.drop ws.length with
        | q :: r2 =>
          if isQuoteChar q then
            let content := r2.takeWhile (fun c => !isQuoteChar c)
            if content.isEmpty then none
            else
              match r2.drop content.length with
              | q2 :: _ => if isQuoteChar q2 then some (String.mk content) else none
              | [] => none
          else none
        | [] => none
    else none) <|>
    (match cs with
     | c :: rest => if c ≠ '\n' then lazyFrom fuel rest else none
     | [] => none)

/-- `import\s+.*?from\s+['"]([^'"]+)['"]` at the current position. -/
def tryImportFrom (cs : List Char) : Option String :=
  if "import".data.isPrefixOf cs then
    let r1 := cs.drop 6
    let ws := r1.takeWhile jsWs
    if ws.isEmpty then none else lazyFrom (r1.length + 1) (r1.drop ws.length)
  else none

/-- `^(?:from\s+(\S+)\s+)?import\s+(\S+)` on the trimmed line
(the added name is group 1 when present, else group 2). -/
def tryPyImport (cs : List Char) : Option String :=
  (if "from".data.isPrefixOf cs then
    let r1 := cs.drop 4
    let ws1 := r1.takeWhile jsWs
    if ws1.isEmpty then none
    else
      let r2 := r1.drop ws1.length
      let m := r2.takeWhile (fun c => !jsWs c)
      if m.isEmpty then none
      else
        let r3 := r2.drop m.length
        let ws2 := r3.takeWhile jsWs
        if ws2.isEmpty then none
        else
          let r4 := r3.drop ws2.length
          if "import".data.isPrefixOf r4 then
            let r5 := r4.drop 6
            let ws3 := r5.takeWhile jsWs
            if ws3.isEmpty then none
            else if ((r5.drop ws3.length).takeWhile (fun c => !jsWs c)).isEmpty then none
            else some (String.mk m)
          else none
  else none) <|>
  (if "import".data.isPrefixOf cs then
    let r1 := cs.drop 6
    let ws := r1.takeWhile jsWs
    if ws.isEmpty then none
    else
      let m := (r1.drop ws.length).takeWhile (fun c => !jsWs c)
      if m.isEmpty then none else some (String.mk m)
  else none)

/-- `^import\s+([\w.]+)` on the trimmed line. -/
def tryJavaImport (cs : List Char) : Option String :=
  if "import".data.isPrefixOf cs then
    let r1 := cs.drop 6
    let ws := r1.takeWhile jsWs
    if ws.isEmpty then none
    else
      let content := (r1.drop ws.length).takeWhile (fun c => isWordChar c || c = '.')
      if content.isEmpty then none else some (String.mk content)
  else none

/-- `^#include\s*[<"]([^>"]+)[>"]` on the trimmed line. -/
def tryCppInclude (cs : List Char) : Option String :=
  if "#include".data.isPrefixOf cs then
    let r1 := (cs.drop 8).dropWhile jsWs
    match r1 with
    | q :: r2 =>
      if q = '<' || q = '"' then
        let content := r2.takeWhile (fun c => c ≠ '>' && c ≠ '"')
        if content.isEmpty then none
        else
          match r2.drop content.length with
          | q2 :: _ => if q2 = '>' || q2 = '"' then some (String.mk content) else none
          | [] => none
      else none
    | [] => none
  else none

/-- Leftmost unanchored match of a positional parser. -/
def scanFirst {α : Type} (f : List Char → Option α) : Nat → List Char → Option α
  | 0, _ => none
  | _, [] => none
  | fuel + 1, c :: cs =>
    match f (c :: cs) with
    | some a => some a
    | none => scanFirst f fuel cs

/-- The four identifier sets collected by `extractCriticalElements`
(JS `Set`s modelled as insertion-ordered duplicate-free lists). -/
structure CriticalElements where
  /-- The `variables` set of the source (`variables` is a Lean keyword). -/
  vars : List String
  functions : List String
  classes : List String
  imports : List String
deriving DecidableEq, Repr

/-- Add an optional capture to a `Set`. -/
def addCapture (l : List String) : Option String → List String
  | some s => insertUnique l s
  | none => l

/-- `extractCriticalElements(code)` — per-line heuristic extraction of
variable, function, class and import names. -/
def extractCriticalElements (code : String) : CriticalElements :=
  (splitLines code).foldl
    (fun acc line =>
      let cs := (jsTrim line).data
      let fuel := cs.length + 1
      { vars := addCapture acc.vars (scanFirst tryVarDecl fuel cs)
        functions := addCapture acc.functions (scanFirst tryFuncDecl fuel cs)
        classes := addCapture acc.classes (scanFirst tryClassDecl fuel cs)
        imports :=
          addCapture (addCapture (addCapture (addCapture acc.imports
            (scanFirst tryImportFrom fuel cs)) (tryPyImport cs)) (tryJavaImport cs))
            (tryCppInclude cs) })
    ⟨[], [], [], []⟩

/-- The four missing-name lists of `validateElementPreservation`. -/
structure MissingElements where
  missingVariables : List String
  missingFunctions : List String
  missingClasses : List String
  missingImports : List String
deriving DecidableEq, Repr

/-- `validateElementPreservation(original, optimized)`. -/
def validateElementPreservation (original optimized : String) : MissingElements :=
  let orig := extractCriticalElements original
  let opt := extractCriticalElements optimized
  ⟨orig.vars.filter (fun v => !opt.vars.contains v),
   orig.functions.filter (fun f => !opt.functions.contains f),
   orig.classes.filter (fun c => !opt.classes.contains c),
   orig.imports.filter (fun i => !opt.imports.contains i)⟩

/-- The nonblank trimmed-split lines used by
`calculateCodeSimilarity`. -/
def nonBlankLines (s : String) : List String :=
  (splitLines (jsTrim s)).filter (fun l => jsTrim l ≠ "")

/-- The per-line match test of `calculateCodeSimilarity` (exact match,
or 10-character-prefix overlap on lines longer than 10 characters). -/
def simLineMatch (o p : String) : Bool :=
  o = p ||
    (o.length > 10 && p.length > 10 &&
      (strIncludes o (String.mk (p.data.take 10)) ||
       strIncludes p (String.mk (o.data.take 10))))

/-- `calculateCodeSimilarity(original, optimized)` — the rounded
percentage `(matching / max) * (min / max) * 100`, with
`Math.round` modelled as exact half-up rounding. -/
def calculateCodeSimilarity (original optimized : String) : Nat :=
  let origLines := nonBlankLines original
  let optLines := nonBlankLines optimized
  if origLines.length = 0 || optLines.length = 0 then 0
  else
    let minLength := min origLines.length optLines.length
    let matching :=
      ((origLines.zip optLines).filter
        (fun pr => simLineMatch (jsTrim pr.1) (jsTrim pr.2))).length
    let maxLen := max origLines.length optLines.length
    (200 * matching * minLength + maxLen * maxLen) / (2 * (maxLen * maxLen))

/-- The result of `repairTruncatedCode`. -/
structure RepairResult where
  repaired : String
  wasRepaired : Bool
deriving DecidableEq, Repr

/-- The quote-aware bracket scan of `repairTruncatedCode`: returns the
stack of expected closers (head = most recently opened). -/
def repairScan : List Char → Option Char → Bool → Char → List Char → List Char
  | [], _, _, _, stack => stack
  | ch :: rest, prev, inString, stringChar, stack =>
    if !inString && (ch = '"' || ch = '\'' || ch = Char.ofNat 96) then
      repairScan rest (some ch) true ch stack
    else if inString && ch = stringChar && prev ≠ some '\\' then
      repairScan rest (some ch) false stringChar stack
    else if !inString then
      if ch = '{' then repairScan rest (some ch) inString stringChar ('}' :: stack)
      else if ch = '(' then repairScan rest (some ch) inString stringChar (')' :: stack)
      else if ch = '[' then repairScan rest (some ch) inString stringChar (']' :: stack)
      else if (ch = '}' || ch = ')' || ch = ']') && stack.head? = some ch then
        repairScan rest (some ch) inString stringChar stack.tail
      else repairScan rest (some ch) inString stringChar stack
    else repairScan rest (some ch) inString stringChar stack

/-- `repairTruncatedCode(code)` — append missing closers in LIFO
order when the bracket stack is nonempty at the end. -/
def repairTruncatedCode (code : String) : RepairResult :=
  let stack := repairScan code.data none false ' ' []
  if stack.isEmpty then ⟨code, false⟩
  else
    let suffix := String.intercalate "\n" (stack.map (fun c => String.mk [c]))
    ⟨jsTrimEnd code ++ "\n" ++ suffix, true⟩

/-- Does the trimmed text end in the given keyword with a word
boundary before it (`/\bKW\s*$/` on an already right-trimmed
subject)? -/
def endsWithWordTok (t : String) (w : String) : Bool :=
  let r := t.data.reverse
  w.data.reverse.isPrefixOf r &&
    (match r.drop w.length with
     | [] => true
     | c :: _ => !isWordChar c)

/-- `isCodeTruncated(code)` — the truncation heuristics. -/
def isCodeTruncated (code : String) : Bool :=
  let t := jsTrimEnd code
  strEndsWith t "..." || strEndsWith t ".." || strEndsWith t "->" ||
  ["if", "for", "while", "function", "class", "def", "struct"].any (endsWithWordTok t) ||
  (match t.data.reverse with
   | c :: _ => c = '{' || c = '(' || c = '['
   | [] => false)

/-- Length of the prefix of the leading whitespace run up to and
including its last newline (the greedy `\s*` followed by `\n`), if a
newline occurs in that run. -/
def lastNlInWsRun (cs : List Char) : Option Nat :=
  let run := cs.takeWhile jsWs
  let rev := run.reverse.dropWhile (· ≠ '\n')
  if rev.isEmpty then none else some rev.length

/-- Match one of the preamble starters of the strip regex (in source
alternation order) on the lowercased text, returning the number of
characters consumed. -/
def tryStarter (low : List Char) : Option Nat :=
  let two := fun (a b : String) =>
    if a.data.isPrefixOf low then
      let r := low.drop a.length
      let ws := r.takeWhile jsWs
      if ws.isEmpty then none
      else if b.data.isPrefixOf (r.drop ws.length) then
        some (a.length + ws.length + b.length)
      else none
    else none
  let one := fun (a : String) =>
    if a.data.isPrefixOf low then some a.length else none
  two "here" "is" <|> two "below" "is" <|> two "the" "optimized" <|>
  two "optimized" "code" <|> two "optimized" "version" <|>
  one "output" <|> one "result" <|> one "answer" <|> one "fixed" <|> one "improved"

/-- Given the end position of the starter, find the rightmost colon on
the first line whose following whitespace run contains a newline, and
return the position just after the last such newline (the end of the
replaced preamble match). -/
def preambleEnd (low : List Char) (e : Nat) : Option Nat :=
  let line1 := (low.drop e).takeWhile (· ≠ '\n')
  let colons := (List.range line1.length).filter (fun i => line1.get? i = some ':')
  colons.reverse.findSome? (fun i =>
    (lastNlInWsRun (low.drop (e + i + 1))).map (fun k => e + i + 1 + k))

/-- The preamble-stripping
`text.replace(/^(?:here\s+is|...|improved)[^\n]*:\s*\n/i, '')`. -/
def stripPreamble (text : String) : String :=
  let low := lowerData text
  match tryStarter low with
  | some e =>
    match preambleEnd low e with
    | some m => ⟨text.data.drop m⟩
    | none => text
  | none => text

/-- The backtick character (kept out of literals for hygiene). -/
def btChar : Char := Char.ofNat 96

/-- Characters consumed by a fence opening (three backticks, a word
run, then greedy `\s*` up to a final newline), if it matches here. -/
def fenceOpenEnd (cs : List Char) : Option Nat :=
  if [btChar, btChar, btChar].isPrefixOf cs then
    let r1 := cs.drop 3
    let w := r1.takeWhile isWordChar
    (lastNlInWsRun (r1.drop w.length)).map (fun k => 3 + w.length + k)
  else none

/-- Index of the first occurrence of `pat` in `cs`. -/
def findSubIdx (pat : List Char) : Nat → List Char → Option Nat
  | 0, _ => none
  | _, [] => if pat.isEmpty then some 0 else none
  | fuel + 1, c :: cs =>
    if pat.isPrefixOf (c :: cs) then some 0
    else (findSubIdx pat fuel cs).map (· + 1)

/-- Strategy 1 of `extractCode`: the leftmost complete fenced block
(trimmed capture). -/
def fencedComplete : Nat → List Char → Option String
  | 0, _ => none
  | _, [] => none
  | fuel + 1, c :: cs =>
    (match fenceOpenEnd (c :: cs) with
     | some k =>
       let after := (c :: cs).drop k
       (findSubIdx [btChar, btChar, btChar] (after.length + 1) after).map
         (fun j => jsTrim ⟨after.take j⟩)
     | none => none) <|> fencedComplete fuel cs

/-- Strategy 2 of `extractCode`: an unterminated fenced block — the
trimmed remainder after the leftmost fence opening (nonempty). -/
def fencedOpenCandidate : Nat → List Char → Option String
  | 0, _ => none
  | _, [] => none
  | fuel + 1, c :: cs =>
    (match fenceOpenEnd (c :: cs) with
     | some k =>
       let after := (c :: cs).drop k
       if after.isEmpty then none else some (jsTrim ⟨after⟩)
     | none => none) <|> fencedOpenCandidate fuel cs

/-- Strategy 3 of `extractCode`: a single inline-backtick span
(`/^`([^`]+)`\s*$/` with backticks written here as `btChar`). -/
def tryInline (cs : List Char) : Option String :=
  match cs with
  | c :: rest =>
    if c = btChar then
      let body := rest.takeWhile (· ≠ btChar)
      if body.isEmpty then none
      else
        match rest.drop body.length with
        | c2 :: r2 =>
          if c2 = btChar && r2.all jsWs then some (jsTrim ⟨body⟩) else none
        | [] => none
    else none
  | [] => none

/-- The `(?:\s+[a-z]+){2,}[.!?]` tail of the prose-shape regex:
greedily count whitespace-separated lowercase words, then require at
least two of them followed by a sentence-final punctuation mark at the
end of the (already trimmed) line. -/
def proseTail : Nat → Nat → List Char → Bool
  | 0, _, _ => false
  | fuel + 1, groups, cs =>
    let ws := cs.takeWhile jsWs
    if !ws.isEmpty then
      let r := cs.drop ws.length
      let w := r.takeWhile isLowerAscii
      if !w.isEmpty then proseTail fuel (groups + 1) (r.drop w.length)
      else false
    else
      groups ≥ 2 &&
        (match cs with
         | [p] => p = '.' || p = '!' || p = '?'
         | _ => false)

/-- `/^[A-Z][a-z]+(?:\s+[a-z]+){2,}[.!?]\s*$/.test(t)` on a trimmed
line. -/
def proseShape (t : String) : Bool :=
  match t.data with
  | c :: rest =>
    isUpperAscii c &&
      (let w1 := rest.takeWhile isLowerAscii
       !w1.isEmpty && proseTail (rest.length + 1) 0 (rest.drop w1.length))
  | [] => false

/-- `/[{}()[\];=<>/*]/.test(t)` — code-punctuation test of the prose
filter. -/
def hasCodePunct (t : String) : Bool :=
  t.data.any (fun c =>
    c = '{' || c = '}' || c = '(' || c = ')' || c = '[' || c = ']' || c = ';' ||
    c = '=' || c = '<' || c = '>' || c = '/' || c = '*')

/-- Strategy 4 of `extractCode`: drop prose-looking lines and keep the
rest. -/
def extractRawHeuristic (text : String) : Option String :=
  let codeLines := (splitLines text).filter (fun line =>
    let t := jsTrim line
    t ≠ "" && !(proseShape t && !hasCodePunct t))
  let candidate := jsTrim (String.intercalate "\n" codeLines)
  if candidate = "" then none else some candidate

/-- `extractCode(rawText)` — preamble strip, then the four extraction
strategies in order. -/
def extractCode (rawText : String) : Option String :=
  let text := jsTrim rawText
  if text = "" then none
  else
    let text := jsTrim (stripPreamble text)
    match fencedComplete (text.length + 1) text.data with
    | some c => some c
    | none =>
      let rest :=
        match tryInline text.data with
        | some s => some s
        | none => extractRawHeuristic text
      match fencedOpenCandidate (text.length + 1) text.data with
      | some cand => if cand.length > 10 then some cand else rest
      | none => rest

/-- The externally visible outcome (interface `OptimizationResult`);
optional TS fields that `normalizeLLMOutput` and `makeFallback` never
set are omitted, the optional fields they do set are `Option`s.  The
underscore-prefixed status flags of the source are renamed:
`parsedFlag` is `_parsed`, `noChangeFlag` is `_no_change`,
`cLanguageFlag` is `_c_language`, `parseWarning` is `_parse_warning`. -/
structure OptimizationResult where
  algorithm : String
  complexity_before : String
  complexity_after : String
  bottleneck : String
  strategy : String
  optimization_strategy : String
  tradeoffs : String
  estimated_improvement : String
  confidence : Int
  explanation : String
  optimized_code : String
  detected_patterns : List DetectedPattern
  possible_optimizations : List OptimizationSuggestion
  static_confidence_score : Rat
  parsedFlag : Bool
  noChangeFlag : Bool
  cLanguageFlag : Option Bool
  parseWarning : Option String
deriving DecidableEq, Repr

/-- JavaScript `a || b` on strings (empty string is falsy). -/
def strOrElse (a b : String) : String := if a = "" then b else a

/-- `analysis.detected_patterns[0]?.description || 'None detected'`. -/
def firstPatternDescr (analysis : StaticAnalysis) : String :=
  match analysis.detected_patterns.head? with
  | some p => strOrElse p.description "None detected"
  | none => "None detected"

/-- `makeFallback(originalCode, isC, enrichment, analysis, warn)` —
the safe fallback result (the `enrichment` argument of the source is
itself built from `analysis` and `isC`, so it is reconstructed here). -/
def makeFallback (originalCode : String) (isC : Bool) (analysis : StaticAnalysis)
    (warn : String) : OptimizationResult where
  algorithm := strOrElse analysis.detected_algorithm "Custom Logic"
  complexity_before := strOrElse analysis.estimated_complexity "Unknown"
  complexity_after := strOrElse analysis.estimated_complexity "Unknown"
  bottleneck := firstPatternDescr analysis
  strategy := "Fallback - original preserved"
  optimization_strategy := "Fallback - original preserved"
  tradeoffs := "None"
  estimated_improvement := "No measurable improvement"
  confidence := 0
  explanation := warn
  optimized_code := originalCode
  detected_patterns := analysis.detected_patterns
  possible_optimizations := analysis.possible_optimizations
  static_confidence_score := analysis.confidence_score
  parsedFlag := false
  noChangeFlag := true
  cLanguageFlag := if isC then some true else none
  parseWarning := some warn

/-- `buildExplanation(analysis)`. -/
def buildExplanation (analysis : StaticAnalysis) : String :=
  let parts : List String :=
    (if analysis.detected_patterns.length > 0 then
      let highSev := analysis.detected_patterns.filter (fun p => p.severity = "high")
      if highSev.length > 0 then
        ["Fixed " ++ toString highSev.length ++ " high-severity issue(s): " ++
          String.intercalate ", " (highSev.map (fun p => p.description)) ++ "."]
      else
        ["Improved " ++ toString analysis.detected_patterns.length ++ " detected pattern(s)."]
    else []) ++
    (match analysis.possible_optimizations.head? with
     | some s => ["Applied: " ++ s.action ++ "."]
     | none => [])
  strOrElse (String.intercalate " " parts) "Performance optimization applied."

/-- `estimateImprovedComplexity(analysis)` — the small
complexity-downgrade table (including the mojibake variants the source
checks for). -/
def estimateImprovedComplexity (analysis : StaticAnalysis) : String :=
  let current := analysis.estimated_complexity
  if strIncludes current "n²" || strIncludes current "n^2" || strIncludes current "nÂ²" then
    "O(n)"
  else if strIncludes current "n³" || strIncludes current "n^3" ||
          strIncludes current "nÂ³" then "O(n²)"
  else if strIncludes current "n log n" then "O(n)"
  else current

/-- `estimateImprovement(analysis)`. -/
def estimateImprovement (analysis : StaticAnalysis) : String :=
  let hasHigh := analysis.detected_patterns.any (fun p => p.severity = "high")
  let hasMedium := analysis.detected_patterns.any (fun p => p.severity = "medium")
  if hasHigh then "Significant - reduced time complexity"
  else if hasMedium then "Moderate - improved efficiency"
  else "Minor optimization applied"

/-- JavaScript `Math.round` on an exact rational (round half up). -/
def jsRound (q : Rat) : Int := Int.floor (q + mkRat 1 2)

/-- The confidence computation of the result-assembly step of
`normalizeLLMOutput` (source lines: base value, C-language cap,
similarity cap, repair cap). -/
def resultConfidence (noChange isC : Bool) (confidenceScore : Rat)
    (similarity : Nat) (hasParseWarning : Bool) : Int :=
  let confidence : Int := if noChange then 100 else jsRound (confidenceScore * 100)
  let confidence := if isC && confidence > 70 && !noChange then 70 else confidence
  let confidence := if similarity < 80 then min confidence 60 else confidence
  if hasParseWarning then min confidence 50 else confidence

/-- `/sort|search|merge|partition|heap|bfs|dfs|binary/i.test(...)` —
the algorithm-aware similarity-threshold trigger (Fix 5). -/
def isSortOrSearchAlgo (s : String) : Bool :=
  ["sort", "search", "merge", "partition", "heap", "bfs", "dfs", "binary"].any
    (fun w => containsSub (lowerData s) w.data)

/-- The trivial-variable filter of the element-preservation step:
single lowercase letters and the fixed loop/temp name list. -/
def isTrivialVar (name : String) : Bool :=
  (match name.data with
   | [c] => isLowerAscii c
   | _ => false) ||
  ["i", "j", "k", "n", "m", "x", "y", "z", "tmp", "temp", "idx", "len", "val", "res",
   "ret", "err", "ok", "cb"].contains name

/-- The meaningful-line counter of the size sanity check: non-blank,
not a line comment, not a lone brace. -/
def countMeaningfulLines (code : String) : Nat :=
  ((splitLines code).filter (fun l =>
    let t := jsTrim l
    t.length > 0 && !strStartsWith t "//" && !strStartsWith t "#" &&
      !strStartsWith t "*" && t ≠ "\x7b" && t ≠ "\x7d")).length

/-- The trivial-filtered missing-variable list of the
element-preservation step of `normalizeLLMOutput`. -/
def meaningfulMissingVarsOf (original extracted : String) : List String :=
  (validateElementPreservation original extracted).missingVariables.filter
    (fun v => !isTrivialVar v)

/-- The `missingParts` summary list of the element-preservation step
of `normalizeLLMOutput` (empty precisely when nothing fatal and no
non-trivial variable is missing). -/
def missingPartsOf (original extracted : String) : List String :=
  let ev := validateElementPreservation original extracted
  let meaningfulMissingVars := meaningfulMissingVarsOf original extracted
  (if meaningfulMissingVars.length > 0 then
    [toString meaningfulMissingVars.length ++ " variable(s): " ++
      String.intercalate ", " meaningfulMissingVars]
  else []) ++
  (if ev.missingFunctions.length > 0 then
    [toString ev.missingFunctions.length ++ " function(s): " ++
      String.intercalate ", " ev.missingFunctions]
  else []) ++
  (if ev.missingClasses.length > 0 then
    [toString ev.missingClasses.length ++ " class(es): " ++
      String.intercalate ", " ev.missingClasses]
  else []) ++
  (if ev.missingImports.length > 0 then
    [toString ev.missingImports.length ++ " import(s): " ++
      String.intercalate ", " ev.missingImports]
  else [])

/-- The step-3 size sanity guard of `normalizeLLMOutput`: the
meaningful-line ratio falls below the size-scaled threshold. -/
def sizeGuardFails (originalCode extracted : String) : Bool :=
  let origMeaningful := countMeaningfulLines originalCode
  let optMeaningful := countMeaningfulLines extracted
  let sizeThreshold : Rat :=
    if origMeaningful ≤ 10 then mkRat 1 10
    else if origMeaningful ≤ 40 then mkRat 3 10
    else mkRat 2 5
  let meaningfulRatio : Rat :=
    if origMeaningful > 0 then mkRat optMeaningful origMeaningful else 1
  meaningfulRatio < sizeThreshold

/-- The step-5 similarity guard of `normalizeLLMOutput`: similarity
below the (algorithm-aware) threshold and the output is not a
no-change. -/
def similarityGuardFails (originalCode extracted : String) (analysis : StaticAnalysis) : Bool :=
  let similarity := calculateCodeSimilarity originalCode extracted
  let noChange := normalizeCode extracted = normalizeCode originalCode
  let isSortOrSearch := isSortOrSearchAlgo analysis.detected_algorithm
  let similarityThreshold := if isSortOrSearch then 25 else 35
  similarity < similarityThreshold && !noChange

/-- Steps 3 to 6 of `normalizeLLMOutput` (the straight-line
continuation after extraction and truncation repair): size sanity
check, element preservation, similarity check and result assembly. -/
def normalizeTail (originalCode extracted : String) (analysis : StaticAnalysis)
    (isC : Bool) (parseWarning : Option String) : OptimizationResult :=
        -- Step 3: size sanity check (`sizeGuardFails`).
        if sizeGuardFails originalCode extracted then
          makeFallback originalCode isC analysis
            ("Model output appears severely truncated (" ++
              toString (countMeaningfulLines extracted) ++ " meaningful lines vs " ++
              toString (countMeaningfulLines originalCode) ++ "); original preserved.")
        else
          -- Step 4: element preservation check (`missingPartsOf`).
          if (missingPartsOf originalCode extracted).length > 0 then
            makeFallback originalCode isC analysis
              ("Model dropped critical elements (" ++
                String.intercalate "; " (missingPartsOf originalCode extracted) ++
                "); original code preserved to prevent data loss.")
          else
            -- Step 5: similarity check (`similarityGuardFails`).
            let similarity := calculateCodeSimilarity originalCode extracted
            let noChange := normalizeCode extracted = normalizeCode originalCode
            if similarityGuardFails originalCode extracted analysis then
              makeFallback originalCode isC analysis
                ("Optimized code similarity too low (" ++ toString similarity ++
                  "%) — likely hallucination; original preserved.")
            else
              -- Step 6: build successful result.
              let explanation :=
                if noChange then "Code is already well-optimized. No meaningful changes found."
                else
                  "Applied conservative optimization (" ++ toString similarity ++
                    "% similarity preserved). " ++ buildExplanation analysis
              let confidence :=
                resultConfidence noChange isC analysis.confidence_score similarity
                  parseWarning.isSome
              let strategy :=
                if noChange then "No change needed"
                else
                  match analysis.possible_optimizations.head? with
                  | some s => strOrElse s.action "Conservative optimization applied"
                  | none => "Conservative optimization applied"
              { algorithm := strOrElse analysis.detected_algorithm "Custom Logic"
                complexity_before := strOrElse analysis.estimated_complexity "Unknown"
                complexity_after :=
                  if noChange then strOrElse analysis.estimated_complexity "Unknown"
                  else estimateImprovedComplexity analysis
                bottleneck := firstPatternDescr analysis
                strategy := strategy
                optimization_strategy := strategy
                tradeoffs := "None"
                estimated_improvement :=
                  if noChange then "No measurable improvement" else estimateImprovement analysis
                confidence := confidence
                explanation := explanation
                optimized_code := extracted
                detected_patterns := analysis.detected_patterns
                possible_optimizations := analysis.possible_optimizations
                static_confidence_score := analysis.confidence_score
                parsedFlag := true
                noChangeFlag := noChange
                cLanguageFlag := if isC then some true else none
                parseWarning := parseWarning }

/-- `normalizeLLMOutput(rawText, originalCode, analysis, language)` —
the six-stage output validator.  Any stage failure short-circuits to
`makeFallback`; steps 3 to 6 are `normalizeTail`. -/
def normalizeLLMOutput (rawText originalCode : String) (analysis : StaticAnalysis)
    (language : Option String) : OptimizationResult :=
  let lang :=
    match language with
    | some l => strOrElse l analysis.language
    | none => analysis.language
  let isC := lang = "C"
  -- Step 1: extract code (the empty string is falsy in the JS guard).
  match extractCode rawText with
  | none => makeFallback originalCode isC analysis
      "Could not extract any code from model output."
  | some e0 =>
    if e0 = "" then
      makeFallback originalCode isC analysis
        "Could not extract any code from model output."
    else
      -- Step 2: repair truncation.
      let rep := repairTruncatedCode e0
      if (isCodeTruncated e0 || rep.wasRepaired) && !rep.wasRepaired then
        makeFallback originalCode isC analysis
          "Model output was truncated and could not be repaired; original code preserved."
      else
        normalizeTail originalCode
          (if isCodeTruncated e0 || rep.wasRepaired then rep.repaired else e0)
          analysis isC
          (if isCodeTruncated e0 || rep.wasRepaired then
            some "Model output was truncated; missing closing brackets were appended automatically."
          else none)

/-! ### Worker retry ladders (`src/workers/optimizer.worker.ts`) -/

/-- Three backticks (the fenced-block marker of the retry prompts). -/
def bt3 : String := String.mk [btChar, btChar, btChar]

/-- The truncation heuristic on the accumulated output of
`runLLMCall` (Fix 8): trailing ellipsis, dangling arrow with spaces,
an opening brace or parenthesis never closed, a dangling keyword
(`/\b(if|for|while|function|class|def)\s*$/i`), or a trailing `{`,
backslash or `/*` (`/(\{|\\|\/\*)\s*$/`). -/
def isIncompleteOutput (output : String) : Bool :=
  let tl := jsTrimEnd ⟨lowerData output⟩
  let t := jsTrimEnd output
  strEndsWith output "..." || strEndsWith output ".." || strEndsWith output " -> " ||
  (strEndsWith output "\x7b" && !strIncludes output "\x7d") ||
  (strEndsWith output "(" && !strIncludes output ")") ||
  ["if", "for", "while", "function", "class", "def"].any (endsWithWordTok tl) ||
  strEndsWith t "\x7b" || strEndsWith t "\\" || strEndsWith t "/*"

/-- Split on whitespace runs and drop empties
(`text.trim().split(/\s+/).filter(Boolean)`). -/
def wsTokens : List Char → List Char → List String
  | [], acc => if acc.isEmpty then [] else [String.mk acc.reverse]
  | c :: rest, acc =>
    if jsWs c then
      if acc.isEmpty then wsTokens rest [] else String.mk acc.reverse :: wsTokens rest []
    else wsTokens rest (c :: acc)

/-- `limitOutputToTokens(text, maxTokens)`. -/
def limitOutputToTokens (text : String) (maxTokens : Nat) : String :=
  let tokens := wsTokens (jsTrim text).data []
  if tokens.length ≤ maxTokens then jsTrim text
  else String.intercalate " " (tokens.take maxTokens)

/-- Which ladder a retry of `runLLMCall` belongs to. -/
inductive RetryKind where
  | emptyRetry
  | truncationRetry
deriving DecidableEq, Repr

/-- Observable outcome of a `runLLMCall` invocation chain: the final
result (or the terminal error message), the prompts issued to the
generation service in order, and the kind of every retry that was
performed. -/
structure RunResult where
  result : Except String String
  prompts : List String
  retries : List RetryKind
deriving Repr

/-- The escalation-level-1 prompt of the empty-output ladder. -/
def simplePrompt (originalCode language : String) : String :=
  let lang := strOrElse language "code"
  let fence := lang.toLower
  "Optimize this " ++ lang ++ " code and return the complete result in a fenced code block:\n" ++
    bt3 ++ fence ++ "\n" ++ originalCode ++ "\n" ++ bt3 ++ "\nOutput:"

/-- The escalation-level-2 prompt of the empty-output ladder. -/
def verySimplePrompt (originalCode language : String) : String :=
  let lang := strOrElse language "code"
  let fence := lang.toLower
  "Return ONLY the optimized " ++ lang ++ " code below in a fenced code block. " ++
    "Do not explain. Do not cut off.\n" ++
    bt3 ++ fence ++ "\n" ++ originalCode ++ "\n" ++ bt3 ++ "\nOutput:"

/-- The directive appended by the truncation-retry ladder. -/
def completeDirective : String :=
  "\n\nIMPORTANT: Return the COMPLETE optimized code, do not cut off mid-sentence."

/-- `runLLMCall(prompt, originalCode, language, retryCount, maxTokens,
fastMode)` of the current worker, with the external generation service
modelled as an oracle `gen` mapping the chronological call index to
the accumulated streamed text of that call.  The retry-as-recursion of
the source is kept; the returned trace records prompts and retry
kinds. -/
def runLLMCall (gen : Nat → String) (callIdx : Nat) (prompt originalCode language : String)
    (retryCount : Nat) (maxTokens : Nat) (fastMode : Bool) : RunResult :=
  let output := gen callIdx
  if jsTrim output = "" then
    if h0 : retryCount = 0 then
      let r := runLLMCall gen (callIdx + 1) (simplePrompt originalCode language)
        originalCode language 1 maxTokens fastMode
      ⟨r.result, prompt :: r.prompts, RetryKind.emptyRetry :: r.retries⟩
    else if h1 : retryCount = 1 then
      let r := runLLMCall gen (callIdx + 1) (verySimplePrompt originalCode language)
        originalCode language 2 maxTokens fastMode
      ⟨r.result, prompt :: r.prompts, RetryKind.emptyRetry :: r.retries⟩
    else ⟨Except.error "Model returned empty output after retries", [prompt], []⟩
  else
    let isIncomplete := isIncompleteOutput output
    let maxRetries := if fastMode then 0 else 2
    if h2 : isIncomplete ∧ retryCount < maxRetries then
      let r := runLLMCall gen (callIdx + 1) (prompt ++ completeDirective)
        originalCode language (retryCount + 1) maxTokens fastMode
      ⟨r.result, prompt :: r.prompts, RetryKind.truncationRetry :: r.retries⟩
    else ⟨Except.ok (limitOutputToTokens output maxTokens), [prompt], []⟩
termination_by 3 - retryCount
decreasing_by
  · omega
  · omega
  · have : maxRetries ≤ 2 := by
      simp only [maxRetries]
      split <;> omega
    omega

/-- `MAX_INPUT_LINES` of the current worker. -/
def MAX_INPUT_LINES : Nat := 80

/-- The logical-boundary test of the worker chunker
(`/^(function|class|def|}|\/\/|\/\*|#)/` or a `}` / `*/` suffix). -/
def workerBoundaryTest (t : String) : Bool :=
  ["function", "class", "def", "\x7d", "//", "/*", "#"].any (strStartsWith t) ||
  strEndsWith t "\x7d" || strEndsWith t "*/"

/-- The boundary adjustment of the worker chunker: move `endIdx` back
to the first logical boundary found within the search range. -/
def adjustEnd (lines : List String) (i endIdx : Nat) : Nat :=
  let searchRange := min 10 (endIdx - i)
  match (List.range searchRange).find?
      (fun j => workerBoundaryTest (jsTrim ((lines.get? (endIdx - j - 1)).getD ""))) with
  | some j => endIdx - j
  | none => endIdx

/-- The chunking loop of the worker `chunkCode` (the loop variable
advances by the fixed chunk size of 56 lines each iteration; the
boundary adjustment only shortens the emitted chunk). -/
def workerChunkLoop (lines : List String) : Nat → Nat → List String
  | 0, _ => []
  | fuel + 1, i =>
    if i < lines.length then
      let endIdx := min (i + 56) lines.length
      let endIdx := if endIdx < lines.length then adjustEnd lines i endIdx else endIdx
      let chunk := String.intercalate "\n" ((lines.drop i).take (endIdx - i))
      let chunk :=
        if endIdx < lines.length then
          let overlapLines := (lines.drop (endIdx - min 3 endIdx)).take (min 3 endIdx)
          if overlapLines.length > 0 then
            chunk ++ "\n// Context for next chunk:\n" ++ String.intercalate "\n" overlapLines
          else chunk
        else chunk
      chunk :: workerChunkLoop lines fuel (i + 56)
    else []

/-- `chunkCode(code)` of the current worker (`MAX_INPUT_LINES` lines,
chunk size `Math.floor(80 * 0.7) = 56`). -/
def chunkCodeWorker (code : String) : List String :=
  let lines := splitLines code
  if lines.length ≤ MAX_INPUT_LINES then [code]
  else workerChunkLoop lines (lines.length + 1) 0

/-! ### Single-chunk orchestration of the older worker
(`optimizer_worker.ts`, the `START_OPTIMIZATION` handler with the
no-change strengthened retry) -/

/-- Which prompt a generation call of the older worker used: the
initial structured prompt of a code block, or the strengthened retry
prompt (`buildStructuredPrompt(code, analysis, focus, true)`). -/
inductive CallKind where
  | initialCall
  | strengthenedRetry
deriving DecidableEq, Repr

/-- Outcome of one `START_OPTIMIZATION` run of the older worker: the
generation calls that were made, in order, and the final result posted
with the `done` message. -/
structure OrchOutcome where
  calls : List CallKind
  final : OptimizationResult
deriving Repr

/-- `CHUNK_THRESHOLD` of the older worker. -/
def CHUNK_THRESHOLD : Nat := 3000

/-- The `START_OPTIMIZATION` flow of the older worker: analyze, run
one generation call per code block, validate, and — when the validated
result is a no-change with detected patterns present — run exactly one
strengthened retry and keep its result only if it actually changed the
code.  The generation service is the oracle `gen` (call index to
accumulated output). -/
def startOptimization (gen : Nat → String) (code language : String) : OrchOutcome :=
  let analysis := analyzeCode code language
  let useChunking := code.length ≥ CHUNK_THRESHOLD && analysis.chunks.length > 1
  let numBlocks := if useChunking then analysis.chunks.length else 1
  let combinedOutput := String.join ((List.range numBlocks).map gen)
  let parsed := normalizeLLMOutput combinedOutput code analysis (some language)
  let initialCalls := (List.range numBlocks).map (fun _ => CallKind.initialCall)
  if parsed.noChangeFlag && analysis.detected_patterns.length > 0 then
    let retryOutput := gen numBlocks
    let retryParsed := normalizeLLMOutput retryOutput code analysis (some language)
    if !retryParsed.noChangeFlag then
      ⟨initialCalls ++ [CallKind.strengthenedRetry],
       { retryParsed with
          parseWarning := some "Required retry — initial attempt returned unchanged code" }⟩
    else ⟨initialCalls ++ [CallKind.strengthenedRetry], parsed⟩
  else ⟨initialCalls, parsed⟩

/-! ### Helper lemmas -/

theorem strAppend_ne_empty (a b : String) (h : a ≠ "") : a ++ b ≠ "" := by
  intro hab
  apply h
  apply String.ext
  have h2 := congrArg String.data hab
  simp only [String.data_append] at h2
  have := List.append_eq_nil.mp h2
  simpa using this.1

theorem filter_not_contains_self (l : List String) :
    l.filter (fun v => !l.contains v) = [] := by
  rw [List.filter_eq_nil_iff]
  intro a ha
  simp [ha]

theorem zip_self_eq_map {α : Type} (l : List α) : l.zip l = l.map (fun a => (a, a)) := by
  induction l with
  | nil => rfl
  | cons a t ih => simp [ih]

theorem simLineMatch_self (o : String) : simLineMatch o o = true := by
  simp [simLineMatch]

theorem calculateCodeSimilarity_self (x : String) (h : nonBlankLines x ≠ []) :
    calculateCodeSimilarity x x = 100 := by
  unfold calculateCodeSimilarity
  have h0 : ¬(nonBlankLines x).length = 0 := by
    intro h0; exact h (List.length_eq_zero.mp h0)
  rw [if_neg (by simp [h0])]
  rw [zip_self_eq_map]
  rw [List.filter_eq_self.mpr (by
    intro pr hpr
    simp only [List.mem_map] at hpr
    obtain ⟨a, _, rfl⟩ := hpr
    simp [simLineMatch])]
  simp only [List.length_map, Nat.min_self, Nat.max_self]
  have hn : 0 < (nonBlankLines x).length := Nat.pos_of_ne_zero h0
  set n := (nonBlankLines x).length with hndef
  have hk : 0 < n * n := Nat.mul_pos hn hn
  have : 200 * n * n + n * n = 201 * (n * n) := by ring
  rw [this]
  rw [Nat.mul_div_mul_right _ _ hk]

theorem mem_of_filter_not_contains_nil {l m : List String}
    (h : l.filter (fun x => !m.contains x) = []) : ∀ x ∈ l, x ∈ m := by
  intro x hx
  by_contra hnx
  have hmem : x ∈ l.filter (fun x => !m.contains x) := by
    rw [List.mem_filter]
    exact ⟨hx, by simp [hnx]⟩
  rw [h] at hmem
  simp at hmem

theorem missingParts_nil (o e : String) (h : ¬(missingPartsOf o e).length > 0) :
    (validateElementPreservation o e).missingFunctions = [] ∧
    (validateElementPreservation o e).missingClasses = [] ∧
    (validateElementPreservation o e).missingImports = [] ∧
    meaningfulMissingVarsOf o e = [] := by
  unfold missingPartsOf at h
  simp only [List.length_append] at h
  by_cases h1 : (meaningfulMissingVarsOf o e).length > 0
  · rw [if_pos h1] at h; simp at h
  by_cases h2 : (validateElementPreservation o e).missingFunctions.length > 0
  · rw [if_pos h2] at h; simp at h
  by_cases h3 : (validateElementPreservation o e).missingClasses.length > 0
  · rw [if_pos h3] at h; simp at h
  by_cases h4 : (validateElementPreservation o e).missingImports.length > 0
  · rw [if_pos h4] at h; simp at h
  exact ⟨List.length_eq_zero.mp (by omega), List.length_eq_zero.mp (by omega),
         List.length_eq_zero.mp (by omega), List.length_eq_zero.mp (by omega)⟩

theorem normalizeTail_dichotomy (o e : String) (analysis : StaticAnalysis)
    (b : Bool) (pw : Option String) :
    (∃ isC w, normalizeTail o e analysis b pw = makeFallback o isC analysis w ∧ w ≠ "") ∨
    ((normalizeTail o e analysis b pw).parsedFlag = true ∧
     (validateElementPreservation o
        (normalizeTail o e analysis b pw).optimized_code).missingFunctions = [] ∧
     (validateElementPreservation o
        (normalizeTail o e analysis b pw).optimized_code).missingClasses = [] ∧
     (validateElementPreservation o
        (normalizeTail o e analysis b pw).optimized_code).missingImports = [] ∧
     meaningfulMissingVarsOf o
        (normalizeTail o e analysis b pw).optimized_code = []) := by
  simp only [normalizeTail]
  split
  · refine Or.inl ⟨b, _, rfl, ?_⟩
    repeat apply strAppend_ne_empty
    decide
  split
  · refine Or.inl ⟨b, _, rfl, ?_⟩
    repeat apply strAppend_ne_empty
    decide
  rename_i hmp
  obtain ⟨hf, hc, hi, hv⟩ := missingParts_nil o e hmp
  split
  · refine Or.inl ⟨b, _, rfl, ?_⟩
    repeat apply strAppend_ne_empty
    decide
  exact Or.inr ⟨rfl, hf, hc, hi, hv⟩

theorem normalize_dichotomy (rawText originalCode : String) (analysis : StaticAnalysis)
    (language : Option String) :
    (∃ isC w, normalizeLLMOutput rawText originalCode analysis language =
        makeFallback originalCode isC analysis w ∧ w ≠ "") ∨
    ((normalizeLLMOutput rawText originalCode analysis language).parsedFlag = true ∧
     (validateElementPreservation originalCode
        (normalizeLLMOutput rawText originalCode analysis language).optimized_code).missingFunctions = [] ∧
     (validateElementPreservation originalCode
        (normalizeLLMOutput rawText originalCode analysis language).optimized_code).missingClasses = [] ∧
     (validateElementPreservation originalCode
        (normalizeLLMOutput rawText originalCode analysis language).optimized_code).missingImports = [] ∧
     meaningfulMissingVarsOf originalCode
        (normalizeLLMOutput rawText originalCode analysis language).optimized_code = []) := by
  simp only [normalizeLLMOutput]
  split
  · exact Or.inl ⟨_, _, rfl, by decide⟩
  split
  · exact Or.inl ⟨_, _, rfl, by decide⟩
  split
  · exact Or.inl ⟨_, _, rfl, by decide⟩
  exact normalizeTail_dichotomy _ _ _ _ _

/-- C1: for every raw model text, original code, static analysis and
language, if the `OptimizationResult` returned by `normalizeLLMOutput`
has `_parsed = false`, then its `optimized_code` equals the original
code byte for byte and its `_no_change` flag is true. -/
theorem C1_fallback_safety (rawText originalCode : String) (analysis : StaticAnalysis)
    (language : Option String)
    (h : (normalizeLLMOutput rawText originalCode analysis language).parsedFlag = false) :
    (normalizeLLMOutput rawText originalCode analysis language).optimized_code =
      originalCode ∧
    (normalizeLLMOutput rawText originalCode analysis language).noChangeFlag = true := by
  rcases normalize_dichotomy rawText originalCode analysis language with
    ⟨isC, w, heq, -⟩ | ⟨hp, -, -, -, -⟩
  · rw [heq]; exact ⟨rfl, rfl⟩
  · rw [hp] at h; cases h

theorem C1_fallback_safety_witness :
    (normalizeLLMOutput "" "function f() {}"
      (analyzeCode "function f() {}" "JavaScript") none).parsedFlag = false ∧
    (normalizeLLMOutput "" "function f() {}"
      (analyzeCode "function f() {}" "JavaScript") none).optimized_code = "function f() {}" ∧
    (normalizeLLMOutput "" "function f() {}"
      (analyzeCode "function f() {}" "JavaScript") none).noChangeFlag = true := by
  have h : (normalizeLLMOutput "" "function f() {}"
      (analyzeCode "function f() {}" "JavaScript") none).parsedFlag = false := by decide
  exact ⟨h, C1_fallback_safety _ _ _ _ h⟩

/-- C2: for every raw model text, original code, analysis and
language, if `normalizeLLMOutput` returns a result with
`_parsed = true`, then every function name, class name and import name
extracted from the original code by the per-language extraction
heuristics is also extracted from the returned `optimized_code`, and
any variable name extracted from the original but not from the output
is classified as trivial. -/
theorem C2_element_preservation (rawText originalCode : String) (analysis : StaticAnalysis)
    (language : Option String)
    (h : (normalizeLLMOutput rawText originalCode analysis language).parsedFlag = true) :
    (∀ f ∈ (extractCriticalElements originalCode).functions,
      f ∈ (extractCriticalElements
        (normalizeLLMOutput rawText originalCode analysis language).optimized_code).functions) ∧
    (∀ c ∈ (extractCriticalElements originalCode).classes,
      c ∈ (extractCriticalElements
        (normalizeLLMOutput rawText originalCode analysis language).optimized_code).classes) ∧
    (∀ i ∈ (extractCriticalElements originalCode).imports,
      i ∈ (extractCriticalElements
        (normalizeLLMOutput rawText originalCode analysis language).optimized_code).imports) ∧
    (∀ v ∈ (extractCriticalElements originalCode).vars,
      v ∉ (extractCriticalElements
        (normalizeLLMOutput rawText originalCode analysis language).optimized_code).vars →
      isTrivialVar v = true) := by
  rcases normalize_dichotomy rawText originalCode analysis language with
    ⟨isC, w, heq, -⟩ | ⟨-, hf, hc, hi, hv⟩
  · rw [heq] at h; cases h
  · simp only [validateElementPreservation] at hf hc hi
    refine ⟨mem_of_filter_not_contains_nil hf, mem_of_filter_not_contains_nil hc,
            mem_of_filter_not_contains_nil hi, ?_⟩
    intro v hmem hnot
    by_contra hnt
    have hvv : v ∈ meaningfulMissingVarsOf originalCode
        (normalizeLLMOutput rawText originalCode analysis language).optimized_code := by
      unfold meaningfulMissingVarsOf
      rw [List.mem_filter]
      constructor
      · simp only [validateElementPreservation]
        rw [List.mem_filter]
        exact ⟨hmem, by simp [hnot]⟩
      · simp [hnt]
    rw [hv] at hvv
    cases hvv

theorem C2_element_preservation_witness :
    (normalizeLLMOutput "```\nconst y = foo();\nreturn y;\n```" "const y = foo();\nreturn y;"
      (analyzeCode "const y = foo();\nreturn y;" "JavaScript") (some "JavaScript")).parsedFlag
      = true ∧
    (∀ f ∈ (extractCriticalElements "const y = foo();\nreturn y;").functions,
      f ∈ (extractCriticalElements
        (normalizeLLMOutput "```\nconst y = foo();\nreturn y;\n```" "const y = foo();\nreturn y;"
          (analyzeCode "const y = foo();\nreturn y;" "JavaScript")
          (some "JavaScript")).optimized_code).functions) := by
  have h : (normalizeLLMOutput "```\nconst y = foo();\nreturn y;\n```" "const y = foo();\nreturn y;"
      (analyzeCode "const y = foo();\nreturn y;" "JavaScript") (some "JavaScript")).parsedFlag
      = true := by decide
  exact ⟨h, (C2_element_preservation _ _ _ _ h).1⟩

/-- C10: every fallback result produced by `normalizeLLMOutput` (that
is, every result with `_parsed = false`) has confidence 0, strategy
`Fallback - original preserved`, and a nonempty `_parse_warning` whose
text is also the explanation of the result. -/
theorem C10_fallback_result_shape (rawText originalCode : String)
    (analysis : StaticAnalysis) (language : Option String)
    (h : (normalizeLLMOutput rawText originalCode analysis language).parsedFlag = false) :
    (normalizeLLMOutput rawText originalCode analysis language).confidence = 0 ∧
    (normalizeLLMOutput rawText originalCode analysis language).strategy =
      "Fallback - original preserved" ∧
    ∃ w, (normalizeLLMOutput rawText originalCode analysis language).parseWarning = some w ∧
      w ≠ "" ∧
      (normalizeLLMOutput rawText originalCode analysis language).explanation = w := by
  rcases normalize_dichotomy rawText originalCode analysis language with
    ⟨isC, w, heq, hw⟩ | ⟨hp, -, -, -, -⟩
  · rw [heq]; exact ⟨rfl, rfl, w, rfl, hw, rfl⟩
  · rw [hp] at h; cases h

theorem C10_fallback_result_shape_witness :
    (normalizeLLMOutput "   " "let q = 5;"
      (analyzeCode "let q = 5;" "JavaScript") none).parsedFlag = false ∧
    (normalizeLLMOutput "   " "let q = 5;"
      (analyzeCode "let q = 5;" "JavaScript") none).confidence = 0 ∧
    (normalizeLLMOutput "   " "let q = 5;"
      (analyzeCode "let q = 5;" "JavaScript") none).strategy =
        "Fallback - original preserved" := by
  have h : (normalizeLLMOutput "   " "let q = 5;"
      (analyzeCode "let q = 5;" "JavaScript") none).parsedFlag = false := by decide
  have h2 := C10_fallback_result_shape "   " "let q = 5;"
      (analyzeCode "let q = 5;" "JavaScript") none h
  exact ⟨h, h2.1, h2.2.1⟩

theorem nonBlank_ne_empty (x : String) (h : nonBlankLines x ≠ []) : x ≠ "" := by
  intro heq
  subst heq
  exact h (by decide)

theorem sizeGuardFails_self (orig : String) : sizeGuardFails orig orig = false := by
  unfold sizeGuardFails
  simp only [Rat.mkRat_eq_div]
  rw [decide_eq_false_iff_not]
  intro hlt
  by_cases h0 : countMeaningfulLines orig > 0
  · rw [if_pos h0] at hlt
    have hcast : (((countMeaningfulLines orig : Int) : Rat)) =
        ((countMeaningfulLines orig : Nat) : Rat) := by push_cast; ring
    rw [hcast, div_self (by
      exact Nat.cast_ne_zero.mpr (by omega))] at hlt
    split_ifs at hlt <;> norm_num at hlt
  · rw [if_neg h0] at hlt
    split_ifs at hlt <;> norm_num at hlt

theorem similarityGuardFails_noChange (o e : String) (analysis : StaticAnalysis)
    (h : normalizeCode e = normalizeCode o) :
    similarityGuardFails o e analysis = false := by
  unfold similarityGuardFails
  simp [h]

theorem missingPartsOf_self (orig : String) : missingPartsOf orig orig = [] := by
  unfold missingPartsOf meaningfulMissingVarsOf validateElementPreservation
  simp only [filter_not_contains_self]
  simp

theorem normalizeTail_unchanged (orig : String) (analysis : StaticAnalysis) (isC : Bool)
    (h : nonBlankLines orig ≠ []) :
    (normalizeTail orig orig analysis isC none).noChangeFlag = true ∧
    (normalizeTail orig orig analysis isC none).confidence = 100 ∧
    (normalizeTail orig orig analysis isC none).explanation =
      "Code is already well-optimized. No meaningful changes found." ∧
    (normalizeTail orig orig analysis isC none).parsedFlag = true := by
  have hsim := calculateCodeSimilarity_self orig h
  simp only [normalizeTail, sizeGuardFails_self, missingPartsOf_self,
    similarityGuardFails_noChange orig orig analysis rfl, resultConfidence, hsim,
    List.length_nil, Option.isSome_none]
  norm_num

/-- C3 (amended): when the extracted model output is exactly the
original code unchanged — and the original code has at least one
nonblank line, is not flagged by the truncation heuristic and is
bracket-balanced, so that the truncation stage does not force a
fallback — the computed line similarity is 100 and the result has
`_no_change = true`, `confidence = 100` and the no-meaningful-change
explanation. -/
theorem C3_no_change_roundtrip (rawText originalCode : String) (analysis : StaticAnalysis)
    (language : Option String)
    (hex : extractCode rawText = some originalCode)
    (hnb : nonBlankLines originalCode ≠ [])
    (htr : isCodeTruncated originalCode = false)
    (hbal : (repairTruncatedCode originalCode).wasRepaired = false) :
    calculateCodeSimilarity originalCode originalCode = 100 ∧
    (normalizeLLMOutput rawText originalCode analysis language).noChangeFlag = true ∧
    (normalizeLLMOutput rawText originalCode analysis language).confidence = 100 ∧
    (normalizeLLMOutput rawText originalCode analysis language).explanation =
      "Code is already well-optimized. No meaningful changes found." := by
  have hne : originalCode ≠ "" := nonBlank_ne_empty originalCode hnb
  have hTail := normalizeTail_unchanged originalCode analysis
    (decide ((match language with
      | some l => strOrElse l analysis.language
      | none => analysis.language) = "C")) hnb
  simp only [normalizeLLMOutput, hex, htr, hbal, Bool.or_self, Bool.or_false,
    Bool.false_and, Bool.and_false, if_neg hne, Bool.false_eq_true, if_false]
  exact ⟨calculateCodeSimilarity_self originalCode hnb, hTail.1, hTail.2.1, hTail.2.2.1⟩

/-- C3 counterexample: for the original code `let x = 1 ...` the model
output extracts to exactly the original code, yet the returned result
is a fallback with confidence 0 and a truncation warning — not the
claimed confidence 100 with a no-meaningful-change explanation —
because the truncation heuristic fires on the trailing ellipsis while
the brackets are balanced, which makes stage 2 fall back. -/
theorem C3_counterexample :
    extractCode "```\nlet x = 1 ...\n```" = some "let x = 1 ..." ∧
    (normalizeLLMOutput "```\nlet x = 1 ...\n```" "let x = 1 ..."
      (analyzeCode "let x = 1 ..." "JavaScript") (some "JavaScript")).confidence = 0 ∧
    ¬((normalizeLLMOutput "```\nlet x = 1 ...\n```" "let x = 1 ..."
      (analyzeCode "let x = 1 ..." "JavaScript") (some "JavaScript")).confidence = 100 ∧
      (normalizeLLMOutput "```\nlet x = 1 ...\n```" "let x = 1 ..."
        (analyzeCode "let x = 1 ..." "JavaScript") (some "JavaScript")).explanation =
        "Code is already well-optimized. No meaningful changes found.") := by
  refine ⟨by decide, by decide, ?_⟩
  intro hcl
  have := hcl.1
  rw [show (normalizeLLMOutput "```\nlet x = 1 ...\n```" "let x = 1 ..."
      (analyzeCode "let x = 1 ..." "JavaScript") (some "JavaScript")).confidence = 0
    from by decide] at this
  cases this

theorem C3_no_change_roundtrip_witness :
    extractCode "```\nconst w = 9;\n```" = some "const w = 9;" ∧
    calculateCodeSimilarity "const w = 9;" "const w = 9;" = 100 ∧
    (normalizeLLMOutput "```\nconst w = 9;\n```" "const w = 9;"
      (analyzeCode "const w = 9;" "JavaScript") (some "JavaScript")).noChangeFlag = true ∧
    (normalizeLLMOutput "```\nconst w = 9;\n```" "const w = 9;"
      (analyzeCode "const w = 9;" "JavaScript") (some "JavaScript")).confidence = 100 := by
  have hex : extractCode "```\nconst w = 9;\n```" = some "const w = 9;" := by decide
  have h := C3_no_change_roundtrip "```\nconst w = 9;\n```" "const w = 9;"
    (analyzeCode "const w = 9;" "JavaScript") (some "JavaScript") hex (by decide) (by decide)
    (by decide)
  exact ⟨hex, h.1, h.2.1, h.2.2.1⟩

/-- C4 counterexample: on the single-line JavaScript input
`for(i<n)for(j<n){}` the analyzer detects no `nested_loops` pattern at
all (the line-based loop counter sees at most one loop per source
line) and estimates `O(n)` — so the pattern list does not contain a
medium/high `nested_loops` entry and the estimated complexity is
neither `O(n²)` nor `O(n³) or worse`. -/
theorem C4_counterexample :
    ¬(((analyzeCode "for(i<n)for(j<n){}" "JavaScript").detected_patterns.any
        (fun p => p.type = "nested_loops" &&
          (p.severity = "medium" || p.severity = "high")) = true) ∧
      ((analyzeCode "for(i<n)for(j<n){}" "JavaScript").estimated_complexity = "O(n²)" ∨
       (analyzeCode "for(i<n)for(j<n){}" "JavaScript").estimated_complexity =
         "O(n³) or worse")) := by
  decide

/-- C4 (amended): on the one-line input `for(i<n)for(j<n){}` the
analyzer returns an empty pattern list and complexity `O(n)`; writing
the same nested loops across lines, `for(i<n){` / `for(j<n){}` / `}`,
does make `detected_patterns` contain a `nested_loops` pattern with
severity `medium`, while the estimated complexity of that variant is
`O(n) to O(2ⁿ) (recursive)` because the recursion heuristic counts the
two `for(...)` headers as a self-calling function. -/
theorem C4_amended :
    (analyzeCode "for(i<n)for(j<n){}" "JavaScript").detected_patterns = [] ∧
    (analyzeCode "for(i<n)for(j<n){}" "JavaScript").estimated_complexity = "O(n)" ∧
    ((analyzeCode "for(i<n)\x7b\nfor(j<n)\x7b\x7d\n\x7d" "JavaScript").detected_patterns.any
      (fun p => p.type = "nested_loops" && p.severity = "medium") = true) ∧
    (analyzeCode "for(i<n)\x7b\nfor(j<n)\x7b\x7d\n\x7d" "JavaScript").estimated_complexity =
      "O(n) to O(2ⁿ) (recursive)" := by
  decide

theorem string_join_singleton (s : String) : String.join [s] = s := by
  apply String.ext
  simp [String.join, String.data_append]

/-- C5: in the single-chunk path of the older worker orchestration
(code below the chunk threshold), whenever the validated result of the
initial generation call has `_no_change = true` and the static
analysis detected at least one pattern, exactly one strengthened retry
is performed — the generation-call list is the initial call followed
by exactly one strengthened-retry call — and when the retry result is
again a no-change, the first no-change result is the final `done`
payload. -/
theorem C5_no_change_retry (gen : Nat → String) (code language : String)
    (hsize : code.length < CHUNK_THRESHOLD)
    (hnc : (normalizeLLMOutput (gen 0) code (analyzeCode code language)
      (some language)).noChangeFlag = true)
    (hp : (analyzeCode code language).detected_patterns ≠ []) :
    (startOptimization gen code language).calls =
      [CallKind.initialCall, CallKind.strengthenedRetry] ∧
    ((normalizeLLMOutput (gen 1) code (analyzeCode code language)
        (some language)).noChangeFlag = true →
      (startOptimization gen code language).final =
        normalizeLLMOutput (gen 0) code (analyzeCode code language) (some language)) := by
  have hgt : ¬(code.length ≥ CHUNK_THRESHOLD) := by omega
  have hlen : (analyzeCode code language).detected_patterns.length > 0 :=
    List.length_pos.mpr hp
  simp only [startOptimization, hgt, decide_False, decide_eq_true_eq, decide_eq_false_iff_not, ge_iff_le,
    not_le, Bool.false_and, Bool.false_eq_true, if_false, List.range_succ, List.range_zero, List.map_cons,
    List.map_nil, string_join_singleton, List.nil_append]
  constructor
  · split
    · split <;> rfl
    · rename_i hcond
      exact absurd (by simp [hnc, hlen]) hcond
  · intro hret
    split
    · rw [if_neg (by simp [hret])]
    · rename_i hcond
      exact absurd (by simp [hnc, hlen]) hcond

theorem C5_no_change_retry_witness :
    ("let a = !!b;" : String).length < CHUNK_THRESHOLD ∧
    (analyzeCode "let a = !!b;" "JavaScript").detected_patterns ≠ [] ∧
    (startOptimization (fun _ => "```\nlet a = !!b;\n```") "let a = !!b;"
      "JavaScript").calls = [CallKind.initialCall, CallKind.strengthenedRetry] := by
  have h1 : ("let a = !!b;" : String).length < CHUNK_THRESHOLD := by decide
  have h2 : (normalizeLLMOutput ((fun _ : Nat => "```\nlet a = !!b;\n```") 0) "let a = !!b;"
      (analyzeCode "let a = !!b;" "JavaScript") (some "JavaScript")).noChangeFlag = true := by
    decide
  have h3 : (analyzeCode "let a = !!b;" "JavaScript").detected_patterns ≠ [] := by decide
  exact ⟨h1, h3,
    (C5_no_change_retry (fun _ => "```\nlet a = !!b;\n```") "let a = !!b;" "JavaScript"
      h1 h2 h3).1⟩

/-- Apply a cap to a value when the condition holds. -/
def capIf (cond : Bool) (cap x : Int) : Int := if cond then min x cap else x

/-- The confidence rule as the amended claim words it: start from 100
when the output is unchanged, otherwise from the analyzer confidence
score times 100 (rounded); cap at 70 for C-language inputs when the
output differs from the original; cap at 60 whenever the computed
similarity is below 80; cap at 50 whenever a truncation repair
occurred. -/
def specConfidence (noChange isC : Bool) (confidenceScore : Rat) (similarity : Nat)
    (repaired : Bool) : Int :=
  capIf repaired 50 (capIf (similarity < 80) 60 (capIf (isC && !noChange) 70
    (if noChange then 100 else jsRound (confidenceScore * 100))))

/-- C6 (amended): the confidence computed in the result assembly of
`normalizeLLMOutput` equals the amended specification — base 100 when
unchanged, else the analyzer score times 100; the cap at 70 applies to
C-language inputs only when the output differs from the original;
similarity below 80 caps at 60; a truncation repair caps at 50. -/
theorem C6_confidence_caps (noChange isC : Bool) (score : Rat) (similarity : Nat)
    (repaired : Bool) :
    resultConfidence noChange isC score similarity repaired =
      specConfidence noChange isC score similarity repaired ∧
    (isC = true → noChange = false →
      resultConfidence noChange isC score similarity repaired ≤ 70) ∧
    (similarity < 80 → resultConfidence noChange isC score similarity repaired ≤ 60) ∧
    (repaired = true → resultConfidence noChange isC score similarity repaired ≤ 50) := by
  unfold resultConfidence specConfidence capIf
  rcases noChange <;> rcases isC <;> rcases repaired <;>
    by_cases hs : similarity < 80 <;>
      simp [hs] <;> omega

theorem C6_confidence_caps_witness :
    resultConfidence false true (mkRat 9 10) 100 false ≤ 70 :=
  (C6_confidence_caps false true (mkRat 9 10) 100 false).2.1 rfl rfl

/-- C6 counterexample: a C-language input whose validated output is
unchanged keeps confidence 100 — the C-language cap of 70 is skipped
for unchanged outputs, so the unconditional reading of the claimed cap
is false. -/
theorem C6_counterexample :
    (normalizeLLMOutput "```\nint x = 1;\n```" "int x = 1;"
      (analyzeCode "int x = 1;" "C") (some "C")).cLanguageFlag = some true ∧
    (normalizeLLMOutput "```\nint x = 1;\n```" "int x = 1;"
      (analyzeCode "int x = 1;" "C") (some "C")).parsedFlag = true ∧
    (normalizeLLMOutput "```\nint x = 1;\n```" "int x = 1;"
      (analyzeCode "int x = 1;" "C") (some "C")).confidence = 100 ∧
    ¬((normalizeLLMOutput "```\nint x = 1;\n```" "int x = 1;"
      (analyzeCode "int x = 1;" "C") (some "C")).confidence ≤ 70) := by
  decide

/-- C7: if the accumulated streamed text is empty/whitespace at the
initial call, at escalation level 1 (simple prompt) and at escalation
level 2 (very simple prompt), `runLLMCall` raises the terminal error
"Model returned empty output after retries" rather than returning a
fallback result, having issued exactly the three escalating prompts
and two empty-output retries. -/
theorem C7_empty_output_ladder (gen : Nat → String) (k : Nat)
    (prompt originalCode language : String) (maxTokens : Nat) (fastMode : Bool)
    (h0 : jsTrim (gen k) = "") (h1 : jsTrim (gen (k + 1)) = "")
    (h2 : jsTrim (gen (k + 2)) = "") :
    runLLMCall gen k prompt originalCode language 0 maxTokens fastMode =
      ⟨Except.error "Model returned empty output after retries",
       [prompt, simplePrompt originalCode language, verySimplePrompt originalCode language],
       [RetryKind.emptyRetry, RetryKind.emptyRetry]⟩ := by
  simp [runLLMCall, h0, h1, h2]

theorem C7_empty_output_ladder_witness :
    jsTrim ((fun _ : Nat => " ") 0) = "" ∧
    (runLLMCall (fun _ : Nat => " ") 0 "P" "var a = 1;" "JavaScript" 0 600 false).result =
      Except.error "Model returned empty output after retries" := by
  refine ⟨by decide, ?_⟩
  have h := C7_empty_output_ladder (fun _ : Nat => " ") 0 "P" "var a = 1;" "JavaScript" 600
    false (by decide) (by decide) (by decide)
  rw [h]

/-- Number of truncation-ladder retries in a `runLLMCall` trace. -/
def truncCount (r : RunResult) : Nat :=
  (r.retries.filter (· = RetryKind.truncationRetry)).length

/-- Number of empty-output-ladder retries in a `runLLMCall` trace. -/
def emptyCount (r : RunResult) : Nat :=
  (r.retries.filter (· = RetryKind.emptyRetry)).length

/-- Invariant of the retry ladders: starting from retry count `rc`,
the two ladders together perform at most `2 - rc` further retries,
and in fast mode no truncation retry is ever performed. -/
theorem runLLMCall_budget (gen : Nat → String) (originalCode language : String)
    (maxTokens : Nat) (fastMode : Bool) :
    ∀ (n k rc : Nat) (prompt : String), 3 - rc ≤ n →
      truncCount (runLLMCall gen k prompt originalCode language rc maxTokens fastMode) +
        emptyCount (runLLMCall gen k prompt originalCode language rc maxTokens fastMode) ≤ 2 - rc ∧
      (fastMode = true →
        truncCount (runLLMCall gen k prompt originalCode language rc maxTokens fastMode) = 0) := by
  intro n
  induction n with
  | zero =>
    intro k rc prompt hn
    rw [runLLMCall.eq_def]
    simp only [truncCount, emptyCount]
    cases fastMode <;>
      [skip; skip] <;>
    · split
      · split
        · exfalso; omega
        · split
          · exfalso; omega
          · simp
      · simp only [if_true, if_false, Bool.false_eq_true]
        split
        · rename_i h2
          exfalso; omega
        · simp
  | succ n ih =>
    intro k rc prompt hn
    rw [runLLMCall.eq_def]
    simp only [truncCount, emptyCount]
    cases fastMode
    all_goals split
    case false.isTrue | true.isTrue =>
      split
      · rename_i h0
        have ih1 := ih (k + 1) 1 (simplePrompt originalCode language) (by omega)
        simp only [truncCount, emptyCount] at ih1
        simp only [List.filter_cons]
        constructor
        · have := ih1.1
          simp only [show (RetryKind.emptyRetry = RetryKind.truncationRetry) = False by simp,
            show (RetryKind.emptyRetry = RetryKind.emptyRetry) = True by simp]
          simp only [decide_False, decide_True, Bool.false_eq_true, Bool.true_eq_false, ite_false, ite_true, if_false, if_true, List.length_cons]
          omega
        · intro hfm
          have := ih1.2 hfm
          simp only [show (RetryKind.emptyRetry = RetryKind.truncationRetry) = False by simp]
          simp only [decide_False, Bool.false_eq_true, ite_false, if_false]
          omega
      · split
        · rename_i h1
          have ih1 := ih (k + 1) 2 (verySimplePrompt originalCode language) (by omega)
          simp only [truncCount, emptyCount] at ih1
          simp only [List.filter_cons]
          constructor
          · have := ih1.1
            simp only [show (RetryKind.emptyRetry = RetryKind.truncationRetry) = False by simp,
              show (RetryKind.emptyRetry = RetryKind.emptyRetry) = True by simp]
            simp only [decide_False, decide_True, Bool.false_eq_true, Bool.true_eq_false, ite_false, ite_true, if_false, if_true, List.length_cons]
            omega
          · intro hfm
            have := ih1.2 hfm
            simp only [show (RetryKind.emptyRetry = RetryKind.truncationRetry) = False by simp]
            simp only [decide_False, Bool.false_eq_true, ite_false, if_false]
            omega
        · simp
    case true.isFalse =>
      simp only [if_true]
      split
      · rename_i h2
        exfalso; omega
      · simp
    case false.isFalse =>
      simp only [Bool.false_eq_true, if_false]
      split
      · rename_i h2
        have hrc : rc < 2 := h2.2
        have ih1 := ih (k + 1) (rc + 1) (prompt ++ completeDirective) (by omega)
        simp only [truncCount, emptyCount] at ih1
        simp only [List.filter_cons]
        constructor
        · have := ih1.1
          simp only [show (RetryKind.truncationRetry = RetryKind.truncationRetry) = True by simp,
            show (RetryKind.truncationRetry = RetryKind.emptyRetry) = False by simp]
          simp only [decide_False, decide_True, Bool.false_eq_true, Bool.true_eq_false, ite_false, ite_true, if_false, if_true, List.length_cons]
          omega
        · intro hfm
          exact absurd hfm (by simp)
      · simp

/-- C8 (amended): a `runLLMCall` chain started at retry count 0
performs at most 2 truncation-triggered retries, and in fast mode it
performs none; however the truncation budget is not independent of
the empty-output ladder: both ladders share the single retry counter,
so the total number of retries of both kinds together is at most 2. -/
theorem C8_truncation_budget (gen : Nat → String) (k : Nat)
    (prompt originalCode language : String) (maxTokens : Nat) (fastMode : Bool) :
    truncCount (runLLMCall gen k prompt originalCode language 0 maxTokens fastMode) ≤ 2 ∧
    truncCount (runLLMCall gen k prompt originalCode language 0 maxTokens fastMode) +
      emptyCount (runLLMCall gen k prompt originalCode language 0 maxTokens fastMode) ≤ 2 ∧
    (fastMode = true →
      truncCount (runLLMCall gen k prompt originalCode language 0 maxTokens fastMode) = 0) := by
  obtain ⟨h1, h2⟩ :=
    runLLMCall_budget gen originalCode language maxTokens fastMode 3 k 0 prompt (by omega)
  exact ⟨by omega, by omega, h2⟩

/-- C8 counterexample to independence of the two retry budgets: the
first call returns whitespace (one empty-output retry) and every later
call returns the truncation-looking output "x...";  only ONE
truncation retry is then performed before the ladder gives up, because
the truncation ladder inherits the retry count already consumed by the
empty-output ladder.  Were the truncation budget counted
independently, two truncation retries would appear in the trace. -/
theorem C8_counterexample :
    isIncompleteOutput "x..." = true ∧
    (runLLMCall (fun n => if n = 0 then " " else "x...") 0 "P" "var a = 1;" "JavaScript"
        0 600 false).retries =
      [RetryKind.emptyRetry, RetryKind.truncationRetry] := by
  refine ⟨by decide, ?_⟩
  have h0 : jsTrim " " = "" := by decide
  have h1 : ¬ jsTrim "x..." = "" := by decide
  have hI : isIncompleteOutput "x..." = true := by decide
  simp [runLLMCall, h0, h1, hI]


/-- C9: both chunkers return the one-element list `[code]` whenever
the input does not exceed their fixed threshold (3200 characters for
the analyzer, 80 lines for the worker) — so concatenating the
returned chunks reconstructs the original code exactly in the
single-chunk case — and for every input both return a non-empty
chunk list. -/
theorem C9_single_chunk_roundtrip (code : String) :
    (code.length ≤ CHUNK_SIZE →
      chunkCodeAnalyzer code = [code] ∧ String.join (chunkCodeAnalyzer code) = code) ∧
    chunkCodeAnalyzer code ≠ [] ∧
    ((splitLines code).length ≤ MAX_INPUT_LINES →
      chunkCodeWorker code = [code] ∧ String.join (chunkCodeWorker code) = code) ∧
    chunkCodeWorker code ≠ [] := by
  refine ⟨?_, ?_, ?_, ?_⟩
  · intro h
    have he : chunkCodeAnalyzer code = [code] := by simp [chunkCodeAnalyzer, h]
    exact ⟨he, by rw [he, string_join_singleton]⟩
  · by_cases h : code.length ≤ CHUNK_SIZE
    · simp [chunkCodeAnalyzer, h]
    · simp only [chunkCodeAnalyzer, if_neg h]
      intro hc
      split at hc <;> split at hc <;> simp_all
  · intro h
    have he : chunkCodeWorker code = [code] := by simp [chunkCodeWorker, h]
    exact ⟨he, by rw [he, string_join_singleton]⟩
  · by_cases h : (splitLines code).length ≤ MAX_INPUT_LINES
    · simp [chunkCodeWorker, h]
    · simp only [chunkCodeWorker, if_neg h]
      have h0 : 0 < (splitLines code).length := by
        simp only [MAX_INPUT_LINES] at h
        omega
      rw [workerChunkLoop]
      simp [h0]

theorem C9_single_chunk_roundtrip_witness :
    "x".length ≤ CHUNK_SIZE ∧ (splitLines "x").length ≤ MAX_INPUT_LINES ∧
    chunkCodeAnalyzer "x" = ["x"] ∧ chunkCodeWorker "x" = ["x"] := by
  have h := C9_single_chunk_roundtrip "x"
  exact ⟨by decide, by decide, (h.1 (by decide)).1, (h.2.2.1 (by decide)).1⟩


end Optima
